import Mathlib

/-!
Shallow embedding of the identity-and-reference core of the `regrafilo`
graph-modeling library (crate `core`), together with theorems checking its
natural-language specification.

The Rust `BTreeMap`/`HashMap` containers are embedded as association lists
whose `insert` replaces the binding of an existing key; only the operations
the source actually performs on them (insert, lookup, membership) are
modelled, so iteration order of the hash containers never matters to any
statement below.  Machine integers (`usize`) are embedded as `Nat`.
-/

namespace Regrafilo

/-- Alias `GroupId = usize` from `util/alias`. -/
abbrev GroupId := Nat

/-- Alias `ItemId = usize` from `util/alias`. -/
abbrev ItemId := Nat

/-- Alias `GraphItemId = usize` from `util/alias`. -/
abbrev GraphItemId := Nat

/-- Modelled from the spec: `DEFAULT_ITEM_ID` from `util/alias` (file absent from
the sources); spec §3: "ItemId 0 is reserved per group for a default entity". -/
def DEFAULT_ITEM_ID : Nat := 0

/-- The closed tag `GraphItemKind` from `util/kind` (spec §3: closed tag
{Node, Edge, Group}). -/
inductive GraphItemKind
  | Group
  | Node
  | Edge
deriving DecidableEq

/-! ### Association-list model of map insert / lookup -/

/-- Insert-or-replace for an association list: the embedding of
`BTreeMap::insert` / `HashMap::insert` at the level of lookups. -/
def alInsert {α β : Type} [DecidableEq α] (k : α) (v : β) : List (α × β) → List (α × β)
  | [] => [(k, v)]
  | (k₁, v₁) :: rest => if k = k₁ then (k, v) :: rest else (k₁, v₁) :: alInsert k v rest

/-- Lookup for an association list: the embedding of `BTreeMap::get` /
`HashMap::get`. -/
def alGet {α β : Type} [DecidableEq α] (k : α) : List (α × β) → Option β
  | [] => none
  | (k₁, v₁) :: rest => if k = k₁ then some v₁ else alGet k rest

/-- Set insertion (the embedding of `HashSet::insert` at membership level). -/
def setInsert {α : Type} [DecidableEq α] (x : α) (s : List α) : List α :=
  if x ∈ s then s else x :: s

theorem alGet_alInsert_self {α β : Type} [DecidableEq α] (k : α) (v : β)
    (l : List (α × β)) : alGet k (alInsert k v l) = some v := by
  induction l with
  | nil => simp [alInsert, alGet]
  | cons hd tl ih =>
    obtain ⟨k₁, v₁⟩ := hd
    by_cases h : k = k₁ <;> simp [alInsert, alGet, h, ih]

theorem alGet_alInsert_ne {α β : Type} [DecidableEq α] (k k' : α) (v : β)
    (l : List (α × β)) (h : k' ≠ k) : alGet k' (alInsert k v l) = alGet k' l := by
  induction l with
  | nil => simp [alInsert, alGet, h]
  | cons hd tl ih =>
    obtain ⟨k₁, v₁⟩ := hd
    by_cases h1 : k = k₁
    · subst h1; simp [alInsert, alGet, h]
    · by_cases h2 : k' = k₁ <;> simp [alInsert, alGet, h1, h2, ih]

/-! ### `ItemArena` (`grafo/core/graph_item/graph_item_arena.rs`)

The arena stores items keyed by `(GroupId, GraphItemId)` and owns a
lock-protected counter `pushed_index`.  The lock is only ever taken
blocking-and-aborting, and the construction pipeline is single-writer by
contract (spec §5), so the counter is embedded as a plain `Nat`.
The builder trait object and the commit closure are embedded as explicit
function arguments (`build`, `getKind`, `getBelong`, `action`); `action`
receives and returns the resolver state, mirroring `&mut Resolver`. -/

structure ItemArena (I : Type) where
  pushed_index : Nat
  arena : List ((GroupId × GraphItemId) × I)

/-- The `Default` impl for `ItemArena`: counter starts at `DEFAULT_ITEM_ID`. -/
def ItemArena.new {I : Type} : ItemArena I :=
  { pushed_index := DEFAULT_ITEM_ID, arena := [] }

/-- `ItemArena::get_push_index`: increment the counter, then return it
(pre-increment; the first allocated id is `DEFAULT_ITEM_ID + 1`).
Returns the allocated id together with the updated arena state. -/
def ItemArena.get_push_index {I : Type} (a : ItemArena I) : GraphItemId × ItemArena I :=
  (a.pushed_index + 1, { a with pushed_index := a.pushed_index + 1 })

/-- `ItemArena::get`. -/
def ItemArena.get {I : Type} (a : ItemArena I) (group_id : GroupId)
    (index : GraphItemId) : Option I :=
  alGet (group_id, index) a.arena

/-- `ItemArena::count`. -/
def ItemArena.count {I : Type} (a : ItemArena I) : Nat := a.arena.length

/-- `ItemArena::push`: run the builder; on `None` return the builder errors
with `false` and allocate nothing; on `Some` allocate the next id, run the
commit `action`, extend the errors with the action errors, and insert the
item into storage exactly when the action's boolean `result` is `true`. -/
def ItemArena.push {I R O E K : Type} (a : ItemArena I) (resolver : R)
    (getKind : I → K) (getBelong : I → GroupId)
    (build : R → Option (I × O) × List E)
    (action : R → K → GroupId → GraphItemId → O → R × Bool × List E) :
    R × ItemArena I × Bool × List E :=
  match build resolver with
  | (none, errors) => (resolver, a, false, errors)
  | (some (item, itemOption), errors) =>
    let group_id := getBelong item
    let (push_index, a₁) := a.get_push_index
    let (resolver₁, result, action_errors) :=
      action resolver (getKind item) group_id push_index itemOption
    if result then
      (resolver₁,
        { a₁ with arena := alInsert (group_id, push_index) item a₁.arena },
        result, errors ++ action_errors)
    else
      (resolver₁, a₁, result, errors ++ action_errors)

/-- `ItemArena::get_default_index`. -/
def ItemArena.get_default_index : GraphItemId := DEFAULT_ITEM_ID

/-- `ItemArena::push_default`: runs the commit action at the reserved index
`DEFAULT_ITEM_ID` for the default item and panics unless the action succeeds
with an empty error list; the panic is embedded as `none`. -/
def ItemArena.push_default {I R O E K : Type} (a : ItemArena I) (resolver : R)
    (defaultItem : I) (getKind : I → K) (getBelong : I → GroupId)
    (defaultOption : O)
    (action : R → K → GroupId → GraphItemId → O → R × Bool × List E) :
    Option (R × ItemArena I) :=
  let item := defaultItem
  let group_id := getBelong item
  let push_index := ItemArena.get_default_index
  let (resolver₁, result, errors) :=
    action resolver (getKind item) group_id push_index defaultOption
  if !result || !errors.isEmpty then
    none
  else
    some (resolver₁, { a with arena := alInsert (group_id, push_index) item a.arena })

/-- `ItemArena::get_default`. -/
def ItemArena.get_default {I : Type} (a : ItemArena I) (group_id : GroupId) : Option I :=
  a.get group_id ItemArena.get_default_index

/-! ### Sequences of pushes (for the allocation-monotonicity claims) -/

/-- One `push` request: the builder's `build` together with the caller's
commit action, as handed to `ItemArena::push`. -/
structure PushStep (R I O E K : Type) where
  build : R → Option (I × O) × List E
  action : R → K → GroupId → GraphItemId → O → R × Bool × List E

/-- Fold a list of push requests over one arena instance. -/
def ItemArena.pushSeq {I R O E K : Type} (a : ItemArena I) (resolver : R)
    (getKind : I → K) (getBelong : I → GroupId) :
    List (PushStep R I O E K) → ItemArena I × R
  | [] => (a, resolver)
  | step :: rest =>
    let res := a.push resolver getKind getBelong step.build step.action
    ItemArena.pushSeq res.2.1 res.1 getKind getBelong rest

/-- The identities handed out by `get_push_index` along a sequence of pushes,
in call order (one per push whose builder yielded an entity, committed or not). -/
def ItemArena.allocatedIds {I R O E K : Type} (a : ItemArena I) (resolver : R)
    (getKind : I → K) (getBelong : I → GroupId) :
    List (PushStep R I O E K) → List GraphItemId
  | [] => []
  | step :: rest =>
    let res := a.push resolver getKind getBelong step.build step.action
    match (step.build resolver).1 with
    | none => ItemArena.allocatedIds res.2.1 res.1 getKind getBelong rest
    | some _ =>
      (a.pushed_index + 1) :: ItemArena.allocatedIds res.2.1 res.1 getKind getBelong rest

/-- The `(GroupId, ItemId)` keys actually inserted into storage along a
sequence of pushes (one per committed push), in call order. -/
def ItemArena.committedKeys {I R O E K : Type} (a : ItemArena I) (resolver : R)
    (getKind : I → K) (getBelong : I → GroupId) :
    List (PushStep R I O E K) → List (GroupId × GraphItemId)
  | [] => []
  | step :: rest =>
    let res := a.push resolver getKind getBelong step.build step.action
    match (step.build resolver).1, res.2.2.1 with
    | some (item, _), true =>
      (getBelong item, a.pushed_index + 1) ::
        ItemArena.committedKeys res.2.1 res.1 getKind getBelong rest
    | _, _ => ItemArena.committedKeys res.2.1 res.1 getKind getBelong rest

/-! ### `NameRefIndex` (`grafo/core/resolve/name_ref.rs`) -/

/-- `KeyWithKind` from `util/kind_key` (file absent from the sources; its two
fields `kind` and `key` are destructured in `name_ref.rs`). -/
structure KeyWithKind (Kind Key : Type) where
  kind : Kind
  key : Key
deriving DecidableEq

/-- `NameIdError` from `name_ref.rs`. -/
inductive NameIdError (Name Kind : Type)
  | AlreadyExist (kind : Kind) (name : Name)
  | Override (kind : Kind) (name : Name)
  | NotExist (kind : Kind) (name : Name)
deriving DecidableEq

/-- `NameRefIndex`: forward map (kind ⇒ name ⇒ value), reverse map
((kind, value) ⇒ name) and the unnamed-registration set. -/
structure NameRefIndex (Name Kind Value : Type) where
  reference_index : List (Kind × List (Name × Value))
  rev_reference_index : List (KeyWithKind Kind Value × Name)
  no_name_reference : List (Kind × Value)

/-- `NameRefIndex::new` (the `Default` impl: all containers empty). -/
def NameRefIndex.new {Name Kind Value : Type} : NameRefIndex Name Kind Value :=
  { reference_index := [], rev_reference_index := [], no_name_reference := [] }

/-- `NameRefIndex::is_usable_name`. -/
def NameRefIndex.is_usable_name {Name Kind Value : Type}
    [DecidableEq Name] [DecidableEq Kind]
    (idx : NameRefIndex Name Kind Value) (kind : Kind) (name : Name) : Bool :=
  match alGet kind idx.reference_index with
  | none => false
  | some map => (alGet name map).isSome

/-- `NameRefIndex::insert_value_or_override`: with a present name the forward
and reverse maps are updated unconditionally and the `Override` signal is
computed from `is_usable_name` before the update; with an absent name only the
unnamed set grows. -/
def NameRefIndex.insert_value_or_override {Name Kind Value : Type}
    [DecidableEq Name] [DecidableEq Kind] [DecidableEq Value]
    (idx : NameRefIndex Name Kind Value) (kind : Kind) (name : Option Name)
    (value : Value) :
    NameRefIndex Name Kind Value × Except (NameIdError Name Kind) Unit :=
  match name with
  | some ref_name =>
    let item_name := ref_name
    let rev_key : KeyWithKind Kind Value := ⟨kind, value⟩
    let result : Except (NameIdError Name Kind) Unit :=
      if idx.is_usable_name kind item_name then
        .error (.Override kind item_name)
      else
        .ok ()
    ({ idx with
        reference_index :=
          alInsert kind (alInsert item_name value ((alGet kind idx.reference_index).getD []))
            idx.reference_index,
        rev_reference_index := alInsert rev_key item_name idx.rev_reference_index },
      result)
  | none =>
    ({ idx with no_name_reference := setInsert (kind, value) idx.no_name_reference },
      .ok ())

/-- `NameRefIndex::get_value`. -/
def NameRefIndex.get_value {Name Kind Value : Type}
    [DecidableEq Name] [DecidableEq Kind]
    (idx : NameRefIndex Name Kind Value) (kind : Kind) (name : Name) : Option Value :=
  (alGet kind idx.reference_index).bind (fun map => alGet name map)

/-- `NameRefIndex::get_name`. -/
def NameRefIndex.get_name {Name Kind Value : Type}
    [DecidableEq Kind] [DecidableEq Value]
    (idx : NameRefIndex Name Kind Value) (kind : Kind) (value : Value) : Option Name :=
  alGet (⟨kind, value⟩ : KeyWithKind Kind Value) idx.rev_reference_index

/-! ### Group hierarchy and `Resolver` (`grafo/core/resolve/resolver.rs`) -/

/-- `IdTreeError`, as enumerated by the `From` impl in `resolver.rs`. -/
inductive IdTreeError
  | NotInitialized
  | NotFindParentId (id : GroupId)
  | AlreadyExistId (id : GroupId)
deriving DecidableEq

/-- `ResolverError` from `resolver.rs`. -/
inductive ResolverError
  | FailSetRootGraphId
  | NotInitialized
  | NotFindParentId (group_id : GroupId)
  | AlreadyExistId (group_id : GroupId)
deriving DecidableEq

/-- The Rust variant identifier of a `ResolverError` value, as written in the
`enum ResolverError` declaration in `resolver.rs`. -/
def ResolverError.variant_name : ResolverError → String
  | .FailSetRootGraphId => "FailSetRootGraphId"
  | .NotInitialized => "NotInitialized"
  | .NotFindParentId _ => "NotFindParentId"
  | .AlreadyExistId _ => "AlreadyExistId"

/-- The `From<IdTreeError<GroupId>>` impl in `resolver.rs`. -/
def IdTreeError.toResolverError : IdTreeError → ResolverError
  | .NotInitialized => .NotInitialized
  | .NotFindParentId i => .NotFindParentId i
  | .AlreadyExistId i => .AlreadyExistId i

/-- Modelled from the spec: the group-hierarchy primitive `IdTree` (its source
file is not under src/; spec sections 3 and 6): a single-rooted tree of
GroupId supporting one-time root assignment, parent-child insertion and
ancestor-chain lookup. `Tree root edges` stores child-to-parent links. -/
inductive IdTree
  | None
  | Tree (root : GroupId) (edges : List (GroupId × GroupId))
deriving DecidableEq

/-- `IdTree::is_some` (used by `Resolver::set_root_group_id`). -/
def IdTree.is_some : IdTree → Bool
  | .None => false
  | .Tree _ _ => true

/-- `IdTree::new`: a tree holding just the root. -/
def IdTree.new (id : GroupId) : IdTree := .Tree id []

/-- Modelled from the spec: membership of a group in the hierarchy. -/
def IdTree.contains_id : IdTree → GroupId → Bool
  | .None, _ => false
  | .Tree root edges, id => id == root || edges.any (fun e => e.1 == id)

/-- Modelled from the spec: `get_root() -> Result<GroupId>`. -/
def IdTree.get_root_id : IdTree → Except IdTreeError GroupId
  | .None => .error .NotInitialized
  | .Tree root _ => .ok root

/-- Modelled from the spec: `insert(parent, child) -> Result`, failing with
`NotFindParentId` if the parent is absent and `AlreadyExistId` if the child is
already present. -/
def IdTree.insert_id : IdTree → GroupId → GroupId → Except IdTreeError IdTree
  | .None, _, _ => .error .NotInitialized
  | .Tree root edges, parent, child =>
    if ¬ (IdTree.Tree root edges).contains_id parent then
      .error (.NotFindParentId parent)
    else if (IdTree.Tree root edges).contains_id child then
      .error (.AlreadyExistId child)
    else
      .ok (.Tree root ((child, parent) :: edges))

/-- Ancestor chain walk with fuel (the links are acyclic by construction; the
fuel argument only provides structural termination). -/
def ancestorWalk (edges : List (GroupId × GroupId)) (root : GroupId) :
    Nat → GroupId → List GroupId
  | 0, _ => []
  | fuel + 1, id =>
    if id = root then []
    else
      match alGet id edges with
      | none => []
      | some parent => parent :: ancestorWalk edges root fuel parent

/-- Modelled from the spec (section 4.3): ordered ancestor chain from
immediate parent to root; empty for the root itself or for a group unknown to
the hierarchy. -/
def IdTree.get_ancestor_ids : IdTree → GroupId → List GroupId
  | .None, _ => []
  | .Tree root edges, id =>
    if (IdTree.Tree root edges).contains_id id then
      ancestorWalk edges root (edges.length + 1) id
    else []

/-- `Resolver`: the group hierarchy plus the graph-item name index.  The
layout-item name index of the source is omitted: no operation involved in the
claims reads or writes it. -/
structure Resolver (Name : Type) where
  group_id_tree : IdTree
  graph_items : NameRefIndex Name GraphItemKind (GroupId × ItemId)

/-- The `Default`/`new` impl for `Resolver`. -/
def Resolver.new {Name : Type} : Resolver Name :=
  { group_id_tree := .None, graph_items := NameRefIndex.new }

/-- `Resolver::set_root_group_id`: one-time initialization of the hierarchy,
returning `FailSetRootGraphId` and leaving the state untouched if the tree is
already initialized. -/
def Resolver.set_root_group_id {Name : Type} (r : Resolver Name) (group_id : GroupId) :
    Resolver Name × Except ResolverError Unit :=
  if r.group_id_tree.is_some then
    (r, .error .FailSetRootGraphId)
  else
    ({ r with group_id_tree := IdTree.new group_id }, .ok ())

/-- `Resolver::get_root_group_id`. -/
def Resolver.get_root_group_id {Name : Type} (r : Resolver Name) :
    Except ResolverError GroupId :=
  match r.group_id_tree.get_root_id with
  | .ok id => .ok id
  | .error e => .error e.toResolverError

/-- `Resolver::get_graph_item_id_pair`. -/
def Resolver.get_graph_item_id_pair {Name : Type} [DecidableEq Name]
    (r : Resolver Name) (item_kind : GraphItemKind) (name : Name) :
    Except (NameIdError Name GraphItemKind) (GroupId × ItemId) :=
  match r.graph_items.get_value item_kind name with
  | some v => .ok v
  | none => .error (.NotExist item_kind name)

/-- `Resolver::get_belong_group`: an absent name resolves to the root group;
a present name resolves through the graph-item index under kind `Group` and
yields the `ItemId` component of the registered pair. -/
def Resolver.get_belong_group {Name : Type} [DecidableEq Name]
    (r : Resolver Name) (name : Option Name) :
    Except (Sum (NameIdError Name GraphItemKind) ResolverError) GroupId :=
  match name with
  | none =>
    match r.get_root_group_id with
    | .ok root_id => .ok root_id
    | .error e => .error (.inr e)
  | some n =>
    match r.get_graph_item_id_pair .Group n with
    | .ok (_, item_id) => .ok item_id
    | .error e => .error (.inl e)

/-- `Resolver::contains_group` (used by the edge builder). -/
def Resolver.contains_group {Name : Type} (r : Resolver Name) (group_id : GroupId) :
    Bool :=
  r.group_id_tree.contains_id group_id

/-- `Resolver::get_ancestor_ids` as consumed by the edge builder (a plain
group list). -/
def Resolver.get_ancestor_ids {Name : Type} (r : Resolver Name) (group_id : GroupId) :
    List GroupId :=
  r.group_id_tree.get_ancestor_ids group_id

/-- `Resolver::is_usable_graph_item_name`. -/
def Resolver.is_usable_graph_item_name {Name : Type} [DecidableEq Name]
    (r : Resolver Name) (item_kind : GraphItemKind) (name : Name) : Bool :=
  r.graph_items.is_usable_name item_kind name

/-- `Resolver::contains_name_graph_item` (the node-builder-side name of the
usable-name check). -/
def Resolver.contains_name_graph_item {Name : Type} [DecidableEq Name]
    (r : Resolver Name) (item_kind : GraphItemKind) (name : Name) : Bool :=
  r.graph_items.is_usable_name item_kind name

/-- Modelled from the spec: the node builder calls a resolver version whose
belong-group getter returns the full `(GroupId, ItemId)` pair (that resolver
version is not under src/).  An absent name resolves to the root group (spec
section 4.3), whose pair carries the root id; a present name resolves through
the graph-item index under kind `Group`. -/
def Resolver.get_belong_group_pair {Name : Type} [DecidableEq Name]
    (r : Resolver Name) (name : Option Name) :
    Except (Sum (NameIdError Name GraphItemKind) ResolverError) (GroupId × ItemId) :=
  match name with
  | none =>
    match r.get_root_group_id with
    | .ok root_id => .ok (root_id, root_id)
    | .error e => .error (.inr e)
  | some n =>
    match r.get_graph_item_id_pair .Group n with
    | .ok pair => .ok pair
    | .error e => .error (.inl e)

/-! ### Items and builder errors -/

/-- Modelled from the spec: `EdgeItemStyle` (source not under src/); it
carries no information relevant to the claims. -/
inductive EdgeItemStyle
  | defaultStyle
deriving DecidableEq

instance : Inhabited EdgeItemStyle := ⟨.defaultStyle⟩

/-- `Endpoint` (spec section 3): what an edge connects to, built by
`Endpoint::new(kind, belong_group, item_id)` in the edge builder. -/
structure Endpoint where
  kind : GraphItemKind
  group_id : GroupId
  item_id : ItemId
deriving DecidableEq

/-- Modelled from the spec (section 3): `EdgeItem` (its own source file is not
under src/; the constructor call `EdgeItem::new(gid, item_id, start, end,
label, style)` appears in `edge/builder.rs`). -/
structure EdgeItem where
  belong_group_id : GroupId
  item_id : ItemId
  start : Endpoint
  end_endpoint : Endpoint
  label : Option String
  style : EdgeItemStyle
deriving DecidableEq

/-- `EdgeItem::new`. -/
def EdgeItem.new (g : GroupId) (i : ItemId) (s e : Endpoint) (label : Option String)
    (style : EdgeItemStyle) : EdgeItem :=
  ⟨g, i, s, e, label, style⟩

/-- `EdgeItemOption`: the deferred name-registration payload of an edge. -/
structure EdgeItemOption (Name : Type) where
  name : Option Name
deriving DecidableEq

/-- `NodeItem` (constructed via `NodeItem::new(belong_group_item_id, item_id)`
in `node/builder.rs`). -/
structure NodeItem where
  belong_group_id : GroupId
  item_id : ItemId
deriving DecidableEq

/-- `NodeItem::new`. -/
def NodeItem.new (g : GroupId) (i : ItemId) : NodeItem := ⟨g, i⟩

/-- `NodeItemOption`. -/
structure NodeItemOption (Name : Type) where
  name : Option Name
deriving DecidableEq

/-- Modelled from the spec (section 7): `EdgeItemError` — the enum under src/
is a stub, so the constructor shapes follow their uses in `edge/builder.rs`;
`FromNameId` and `FromResolver` embed the `from_with_id` conversions. -/
inductive EdgeItemError (Name : Type)
  | FailResolveBelongGroup (item_id : ItemId) (name : Option Name)
      (belong_group : Option Name)
  | NotSpecifyStartEndpoint (item_id : ItemId) (name : Option Name)
      (endpoint : Option (GraphItemKind × Name))
  | NotSpecifyEndEndpoint (item_id : ItemId) (name : Option Name)
      (endpoint : Option (GraphItemKind × Name))
  | CannotSpecifyBelongGroupAsEndpoint (item_id : ItemId) (name : Option Name)
      (endpoint_name : Name)
  | InappropriateGroup (item_id : ItemId) (name : Option Name)
      (belong_group : Option Name)
  | FailResolveStartEndpoint (item_id : ItemId) (name : Option Name)
      (endpoint : Option (GraphItemKind × Name))
  | FailResolveEndEndpoint (item_id : ItemId) (name : Option Name)
      (endpoint : Option (GraphItemKind × Name))
  | FromNameId (item_id : ItemId) (name : Option Name)
      (e : NameIdError Name GraphItemKind)
  | FromResolver (item_id : ItemId) (name : Option Name) (e : ResolverError)
deriving DecidableEq

/-- Modelled from the spec (section 7): `NodeItemError`, shapes from their
uses in `node/builder.rs`. -/
inductive NodeItemError (Name : Type)
  | FailResolveBelongGroup (item_id : ItemId)
  | FromNameId (item_id : ItemId) (e : NameIdError Name GraphItemKind)
deriving DecidableEq

/-- `GrafoError`: the crate-wide error sum the builders push into. -/
inductive GrafoError (Name : Type)
  | EdgeItemError (e : EdgeItemError Name)
  | NodeItemError (e : NodeItemError Name)
  | ResolverError (e : ResolverError)
deriving DecidableEq

/-! ### `EdgeItemBuilder` (`grafo/core/graph_item/item/edge/builder.rs`)

The Rust code threads a `&mut Vec<GrafoError>`; the embedding threads the
error list explicitly: every stage takes the accumulated list and returns the
extended one. -/

structure EdgeItemBuilder (Name : Type) where
  belong_group : Option Name
  name : Option Name
  label : Option String
  style : Option EdgeItemStyle
  start : Option (GraphItemKind × Name)
  end_ : Option (GraphItemKind × Name)

/-- `EdgeItemBuilder::new`. -/
def EdgeItemBuilder.new {Name : Type} : EdgeItemBuilder Name :=
  ⟨none, none, none, none, none, none⟩

/-- `EdgeItemBuilder::resolve_belong_group`. -/
def EdgeItemBuilder.resolve_belong_group {Name : Type} [DecidableEq Name]
    (b : EdgeItemBuilder Name) (item_id : ItemId) (resolver : Resolver Name)
    (errors : List (GrafoError Name)) : Option ItemId × List (GrafoError Name) :=
  match resolver.get_belong_group b.belong_group with
  | .ok group => (some group, errors)
  | .error (.inl e) =>
    (none, errors ++ [.EdgeItemError (.FromNameId item_id b.name e)])
  | .error (.inr e) =>
    (none, errors ++ [.EdgeItemError (.FromResolver item_id b.name e)])

/-- `EdgeItemBuilder::resolve_endpoint`: resolve a `(kind, name)` endpoint and,
for a `Group`-kind endpoint, reject the edge's own belonging group and all of
its ancestors with `CannotSpecifyBelongGroupAsEndpoint`. -/
def EdgeItemBuilder.resolve_endpoint {Name : Type} [DecidableEq Name]
    (b : EdgeItemBuilder Name) (group_id : GroupId) (item_id : ItemId)
    (endpoint : Option (GraphItemKind × Name)) (resolver : Resolver Name)
    (errors : List (GrafoError Name))
    (not_specify_error : ItemId → EdgeItemError Name) :
    Option (GraphItemKind × (GroupId × ItemId)) × List (GrafoError Name) :=
  match endpoint with
  | some (kind, name) =>
    match resolver.get_graph_item_id_pair kind name with
    | .ok (endpoint_group_id, endpoint_item_id) =>
      if kind = .Group then
        if group_id = endpoint_item_id then
          (none, errors ++
            [.EdgeItemError (.CannotSpecifyBelongGroupAsEndpoint item_id b.name name)])
        else if resolver.contains_group group_id then
          if endpoint_item_id ∈ resolver.get_ancestor_ids group_id then
            (none, errors ++
              [.EdgeItemError (.CannotSpecifyBelongGroupAsEndpoint item_id b.name name)])
          else
            (some (kind, (endpoint_group_id, endpoint_item_id)), errors)
        else
          (none, errors ++
            [.EdgeItemError (.FromNameId item_id b.name (.NotExist .Group name)),
             .EdgeItemError (.CannotSpecifyBelongGroupAsEndpoint item_id b.name name)])
      else
        (some (kind, (endpoint_group_id, endpoint_item_id)), errors)
    | .error e =>
      (none, errors ++ [.EdgeItemError (.FromNameId item_id b.name e)])
  | none => (none, errors ++ [.EdgeItemError (not_specify_error item_id)])

/-- `EdgeItemBuilder::resolve_item`: combine the resolved belonging group and
endpoints, check the common-ancestor containment rule, then independently
check the requested name for `AlreadyExist`. -/
def EdgeItemBuilder.resolve_item {Name : Type} [DecidableEq Name]
    (b : EdgeItemBuilder Name) (item_id : ItemId) (resolver : Resolver Name)
    (errors : List (GrafoError Name))
    (resolved_belong_group : Option ItemId)
    (resolved_start resolved_end : Option (GraphItemKind × (GroupId × ItemId))) :
    Option EdgeItem × EdgeItemOption Name × List (GrafoError Name) :=
  let step : Option EdgeItem × List (GrafoError Name) :=
    match resolved_belong_group, resolved_start, resolved_end with
    | none, _, _ =>
      (none, errors ++
        [.EdgeItemError (.FailResolveBelongGroup item_id b.name b.belong_group)])
    | some gid, some s, some e =>
      let (s_kind, (s_belong_group, s_item_id)) := s
      let (e_kind, (e_belong_group, e_item_id)) := e
      if (gid == s_belong_group
            || (resolver.get_ancestor_ids s_belong_group).contains gid)
          && (gid == e_belong_group
            || (resolver.get_ancestor_ids e_belong_group).contains gid) then
        (some (EdgeItem.new gid item_id
          ⟨s_kind, s_belong_group, s_item_id⟩
          ⟨e_kind, e_belong_group, e_item_id⟩
          b.label (b.style.getD default)), errors)
      else
        (none, errors ++
          [.EdgeItemError (.InappropriateGroup item_id b.name b.belong_group)])
    | some _, none, none =>
      (none, errors ++
        [.EdgeItemError (.FailResolveStartEndpoint item_id b.name b.start),
         .EdgeItemError (.FailResolveEndEndpoint item_id b.name b.end_)])
    | some _, none, some _ =>
      (none, errors ++
        [.EdgeItemError (.FailResolveStartEndpoint item_id b.name b.start)])
    | some _, some _, none =>
      (none, errors ++
        [.EdgeItemError (.FailResolveEndEndpoint item_id b.name b.end_)])
  let withName :=
    match b.name with
    | some n =>
      if resolver.is_usable_graph_item_name .Edge n then
        step.2 ++ [.EdgeItemError (.FromNameId item_id (some n)
          (.AlreadyExist .Edge n))]
      else step.2
    | none => step.2
  (step.1, ⟨b.name⟩, withName)

/-- The final `match item` of `EdgeItemBuilder::build`, factored out. -/
def finishEdgeBuild {Name : Type}
    (res : Option EdgeItem × EdgeItemOption Name × List (GrafoError Name)) :
    Option (EdgeItem × EdgeItemOption Name) × List (GrafoError Name) :=
  match res.1 with
  | some i => (some (i, res.2.1), res.2.2)
  | none => (none, res.2.2)

/-- `EdgeItemBuilder::build`: belonging group, then (only on success) both
endpoints, then `resolve_item`, then the final `match item`. -/
def EdgeItemBuilder.build {Name : Type} [DecidableEq Name]
    (b : EdgeItemBuilder Name) (item_id : ItemId) (resolver : Resolver Name) :
    Option (EdgeItem × EdgeItemOption Name) × List (GrafoError Name) :=
  let bg := b.resolve_belong_group item_id resolver []
  let st :=
    match bg.1 with
    | some g => b.resolve_endpoint g item_id b.start resolver bg.2
        (fun iid => .NotSpecifyStartEndpoint iid b.name b.start)
    | none => (none, bg.2)
  let en :=
    match bg.1 with
    | some g => b.resolve_endpoint g item_id b.end_ resolver st.2
        (fun iid => .NotSpecifyEndEndpoint iid b.name b.end_)
    | none => (none, st.2)
  finishEdgeBuild (b.resolve_item item_id resolver en.2 bg.1 st.1 en.1)

/-- Abbreviation for the start-endpoint stage of `build` once the belonging
group has resolved to `G` (the accumulated error list is then still empty). -/
def EdgeItemBuilder.stStage {Name : Type} [DecidableEq Name]
    (b : EdgeItemBuilder Name) (item_id : ItemId) (resolver : Resolver Name)
    (G : GroupId) :
    Option (GraphItemKind × (GroupId × ItemId)) × List (GrafoError Name) :=
  b.resolve_endpoint G item_id b.start resolver []
    (fun iid => .NotSpecifyStartEndpoint iid b.name b.start)

/-- Abbreviation for the end-endpoint stage of `build` once the belonging
group has resolved to `G`. -/
def EdgeItemBuilder.enStage {Name : Type} [DecidableEq Name]
    (b : EdgeItemBuilder Name) (item_id : ItemId) (resolver : Resolver Name)
    (G : GroupId) :
    Option (GraphItemKind × (GroupId × ItemId)) × List (GrafoError Name) :=
  b.resolve_endpoint G item_id b.end_ resolver (b.stStage item_id resolver G).2
    (fun iid => .NotSpecifyEndEndpoint iid b.name b.end_)

/-- Abbreviation for the `resolve_item` stage of `build` once the belonging
group has resolved to `G`. -/
def EdgeItemBuilder.resStage {Name : Type} [DecidableEq Name]
    (b : EdgeItemBuilder Name) (item_id : ItemId) (resolver : Resolver Name)
    (G : GroupId) :
    Option EdgeItem × EdgeItemOption Name × List (GrafoError Name) :=
  b.resolve_item item_id resolver (b.enStage item_id resolver G).2 (some G)
    (b.stStage item_id resolver G).1 (b.enStage item_id resolver G).1

/-! ### `NodeItemBuilder` (`grafo/core/graph_item/item/node/builder.rs`) -/

structure NodeItemBuilder (Name : Type) where
  belong_group : Option Name
  name : Option Name

/-- `NodeItemBuilder::new`. -/
def NodeItemBuilder.new {Name : Type} : NodeItemBuilder Name := ⟨none, none⟩

/-- `NodeItemBuilder::resolve_belong_group`. -/
def NodeItemBuilder.resolve_belong_group {Name : Type} [DecidableEq Name]
    (belong_group : Option Name) (item_id : ItemId) (resolver : Resolver Name)
    (errors : List (GrafoError Name)) :
    Option (GroupId × ItemId) × List (GrafoError Name) :=
  match resolver.get_belong_group_pair belong_group with
  | .ok group => (some group, errors)
  | .error (.inl e) => (none, errors ++ [.NodeItemError (.FromNameId item_id e)])
  | .error (.inr e) => (none, errors ++ [.ResolverError e])

/-- `NodeItemBuilder::resolve_item`. -/
def NodeItemBuilder.resolve_item {Name : Type} (item_id : ItemId)
    (errors : List (GrafoError Name))
    (resolved_belong_group : Option (GroupId × ItemId)) :
    Option NodeItem × List (GrafoError Name) :=
  match resolved_belong_group with
  | none =>
    (none, errors ++ [.NodeItemError (.FailResolveBelongGroup item_id)])
  | some g => (some (NodeItem.new g.2 item_id), errors)

/-- `NodeItemBuilder::resolve_item_option`: independent of entity success, a
requested name that is already taken under kind `Node` appends an
`AlreadyExist` error; the option itself is always produced. -/
def NodeItemBuilder.resolve_item_option {Name : Type} [DecidableEq Name]
    (name : Option Name) (item_id : ItemId) (resolver : Resolver Name)
    (errors : List (GrafoError Name)) :
    Option (NodeItemOption Name) × List (GrafoError Name) :=
  let errors₁ :=
    match name with
    | some n =>
      if resolver.contains_name_graph_item .Node n then
        errors ++ [.NodeItemError (.FromNameId item_id (.AlreadyExist .Node n))]
      else errors
    | none => errors
  (some ⟨name⟩, errors₁)

/-- `NodeItemBuilder::build`. -/
def NodeItemBuilder.build {Name : Type} [DecidableEq Name]
    (b : NodeItemBuilder Name) (item_id : ItemId) (resolver : Resolver Name) :
    Option (NodeItem × NodeItemOption Name) × List (GrafoError Name) :=
  let bg := NodeItemBuilder.resolve_belong_group b.belong_group item_id resolver []
  let it := NodeItemBuilder.resolve_item item_id bg.2 bg.1
  let op := NodeItemBuilder.resolve_item_option b.name item_id resolver it.2
  match it.1, op.1 with
  | some i, some o => (some (i, o), op.2)
  | _, _ => (none, op.2)

/-! ### Merge iterators (`util/iter.rs`)

`DoubleEndedPeekable` wraps a `btree_map` entry iterator: within one
traversal direction its `peek`/`next` behave exactly as `head?`/tail — and
`peek_back`/`next_back` as `getLast?`/`dropLast` — of the remaining entry
list, so each partition iterator is embedded as the list of its remaining
`(ItemId, value)` entries in ascending key order, and the merge iterators as
lists of such partitions. -/

/-- The selection loop of `IterGroupByAll::next` / `IterGroupByList::next`:
scan the partitions with their indices, peeking each head; keep the index of
the partition whose head item id is minimal, a later partition winning ties
(the loop updates whenever `min_item_id >= item_id`). -/
def selectMinAux {I : Type} :
    Nat → Option (Nat × ItemId) → List (List (ItemId × I)) → Option (Nat × ItemId)
  | _, acc, [] => acc
  | i, acc, l :: rest =>
    match l.head? with
    | none => selectMinAux (i + 1) acc rest
    | some (item_id, _) =>
      match acc with
      | none => selectMinAux (i + 1) (some (i, item_id)) rest
      | some (j, m) =>
        if m ≥ item_id then selectMinAux (i + 1) (some (i, item_id)) rest
        else selectMinAux (i + 1) (some (j, m)) rest

/-- The selection loop of `next_back`: peek each partition's back; keep the
index of the maximal back item id, a later partition winning ties (the loop
updates whenever `max_item_id <= item_id`). -/
def selectMaxAux {I : Type} :
    Nat → Option (Nat × ItemId) → List (List (ItemId × I)) → Option (Nat × ItemId)
  | _, acc, [] => acc
  | i, acc, l :: rest =>
    match l.getLast? with
    | none => selectMaxAux (i + 1) acc rest
    | some (item_id, _) =>
      match acc with
      | none => selectMaxAux (i + 1) (some (i, item_id)) rest
      | some (j, m) =>
        if m ≤ item_id then selectMaxAux (i + 1) (some (i, item_id)) rest
        else selectMaxAux (i + 1) (some (j, m)) rest

/-- One step of the forward merge (`next`): select the minimal head and pop
it from its partition. -/
def iterNext {I : Type} (iters : List (List (ItemId × I))) :
    Option ((ItemId × I) × List (List (ItemId × I))) :=
  match selectMinAux 0 none iters with
  | none => none
  | some (idx, _) =>
    match iters.get? idx with
    | none => none
    | some [] => none
    | some (hd :: tl) => some (hd, iters.set idx tl)

/-- One step of the backward merge (`next_back`): select the maximal back
element and pop it from its partition. -/
def iterNextBack {I : Type} (iters : List (List (ItemId × I))) :
    Option ((ItemId × I) × List (List (ItemId × I))) :=
  match selectMaxAux 0 none iters with
  | none => none
  | some (idx, _) =>
    match iters.get? idx with
    | none => none
    | some l =>
      match l.getLast? with
      | none => none
      | some hd => some (hd, iters.set idx l.dropLast)

/-- Total number of entries left across all partitions. -/
def sumLen {I : Type} (iters : List (List (ItemId × I))) : Nat :=
  (iters.map List.length).sum

/-- Repeated `next` until exhaustion (the fuel is the total entry count). -/
def runForwardAux {I : Type} : Nat → List (List (ItemId × I)) → List (ItemId × I)
  | 0, _ => []
  | fuel + 1, iters =>
    match iterNext iters with
    | none => []
    | some (hd, iters₁) => hd :: runForwardAux fuel iters₁

/-- The full forward traversal of a merge iterator. -/
def runForward {I : Type} (iters : List (List (ItemId × I))) : List (ItemId × I) :=
  runForwardAux (sumLen iters) iters

/-- Repeated `next_back` until exhaustion. -/
def runBackwardAux {I : Type} : Nat → List (List (ItemId × I)) → List (ItemId × I)
  | 0, _ => []
  | fuel + 1, iters =>
    match iterNextBack iters with
    | none => []
    | some (hd, iters₁) => hd :: runBackwardAux fuel iters₁

/-- The full backward traversal of a merge iterator. -/
def runBackward {I : Type} (iters : List (List (ItemId × I))) : List (ItemId × I) :=
  runBackwardAux (sumLen iters) iters

/-- `IterGroupByAll::from_btree_map`: one partition iterator per group, in
ascending group order. -/
def IterGroupByAll.from_btree_map {I : Type}
    (map : List (GroupId × List (ItemId × I))) : List (List (ItemId × I)) :=
  map.map Prod.snd

/-- `IterGroupByList::from_btree_map`: keep exactly the partitions whose
group is in the caller-supplied list. -/
def IterGroupByList.from_btree_map {I : Type} (groups : List GroupId)
    (map : List (GroupId × List (ItemId × I))) : List (List (ItemId × I)) :=
  (map.filter (fun p => groups.contains p.1)).map Prod.snd

/-! ### Concrete fixtures used by witnesses -/

/-- A resolver whose hierarchy is the single root `3` and whose graph-item
index registers the group name `7` with the pair `(0, 3)`. -/
def sampleResolverGroup : Resolver Nat :=
  { group_id_tree := IdTree.new 3,
    graph_items :=
      { reference_index := [(GraphItemKind.Group, [(7, ((0 : GroupId), (3 : ItemId)))])],
        rev_reference_index := [],
        no_name_reference := [] } }

/-- An edge builder that names its own belonging group (group name `7`) as its
start endpoint. -/
def sampleSelfEndpointBuilder : EdgeItemBuilder Nat :=
  { belong_group := some 7, name := none, label := none, style := none,
    start := some (.Group, 7), end_ := none }

/-- A resolver with root group `0` and two node names `1`, `2` registered in
the root group. -/
def sampleResolverNodes : Resolver Nat :=
  { group_id_tree := IdTree.new 0,
    graph_items :=
      { reference_index :=
          [(GraphItemKind.Node,
            [(1, ((0 : GroupId), (10 : ItemId))), (2, ((0 : GroupId), (11 : ItemId)))])],
        rev_reference_index := [],
        no_name_reference := [] } }

/-- An edge builder in the root group connecting the two sample nodes. -/
def sampleEdgeBuilderNodes : EdgeItemBuilder Nat :=
  { belong_group := none, name := none, label := none, style := none,
    start := some (.Node, 1), end_ := some (.Node, 2) }

/-- A resolver with a node name `5` and an edge name `6` registered. -/
def sampleResolverNames : Resolver Nat :=
  { group_id_tree := IdTree.new 0,
    graph_items :=
      { reference_index :=
          [(GraphItemKind.Node, [(5, ((0 : GroupId), (1 : ItemId)))]),
           (GraphItemKind.Edge, [(6, ((0 : GroupId), (2 : ItemId)))])],
        rev_reference_index := [],
        no_name_reference := [] } }

/-! ## Theorems -/

/-! ### Helper lemmas about `ItemArena.push` -/

theorem ItemArena.push_build_none {I R O E K : Type} (a : ItemArena I) (resolver : R)
    (getKind : I → K) (getBelong : I → GroupId)
    (build : R → Option (I × O) × List E)
    (action : R → K → GroupId → GraphItemId → O → R × Bool × List E)
    (errs : List E) (h : build resolver = (none, errs)) :
    a.push resolver getKind getBelong build action = (resolver, a, false, errs) := by
  simp [ItemArena.push, h]

theorem ItemArena.push_build_some {I R O E K : Type} (a : ItemArena I) (resolver : R)
    (getKind : I → K) (getBelong : I → GroupId)
    (build : R → Option (I × O) × List E)
    (action : R → K → GroupId → GraphItemId → O → R × Bool × List E)
    (item : I) (o : O) (errs : List E) (r₂ : R) (ok : Bool) (aerrs : List E)
    (h : build resolver = (some (item, o), errs))
    (ha : action resolver (getKind item) (getBelong item) (a.pushed_index + 1) o
      = (r₂, ok, aerrs)) :
    a.push resolver getKind getBelong build action =
      (r₂,
        { pushed_index := a.pushed_index + 1,
          arena := if ok then alInsert (getBelong item, a.pushed_index + 1) item a.arena
                   else a.arena },
        ok, errs ++ aerrs) := by
  cases ok <;> simp [ItemArena.push, ItemArena.get_push_index, h, ha]

/-- After any single `push`, the counter has not decreased. -/
theorem ItemArena.push_pushed_index_le {I R O E K : Type} (a : ItemArena I) (resolver : R)
    (getKind : I → K) (getBelong : I → GroupId)
    (build : R → Option (I × O) × List E)
    (action : R → K → GroupId → GraphItemId → O → R × Bool × List E) :
    a.pushed_index ≤ (a.push resolver getKind getBelong build action).2.1.pushed_index := by
  rcases h : build resolver with ⟨opt, errs⟩
  match opt with
  | none => rw [ItemArena.push_build_none a resolver getKind getBelong build action errs h]
  | some (item, o) =>
    rcases ha : action resolver (getKind item) (getBelong item) (a.pushed_index + 1) o
      with ⟨r₂, ok, aerrs⟩
    rw [ItemArena.push_build_some a resolver getKind getBelong build action item o errs
      r₂ ok aerrs h ha]
    exact Nat.le_succ _

/-- Every identity allocated along a sequence of pushes is strictly greater
than the counter at the start of the sequence. -/
theorem ItemArena.allocatedIds_gt {I R O E K : Type}
    (getKind : I → K) (getBelong : I → GroupId) :
    ∀ (steps : List (PushStep R I O E K)) (a : ItemArena I) (resolver : R)
      (id : GraphItemId), id ∈ a.allocatedIds resolver getKind getBelong steps →
      a.pushed_index < id := by
  intro steps
  induction steps with
  | nil => intro a resolver id h; simp [ItemArena.allocatedIds] at h
  | cons step rest ih =>
    intro a resolver id h
    rcases hb : step.build resolver with ⟨opt, errs⟩
    match opt with
    | none =>
      rw [ItemArena.allocatedIds] at h
      rw [ItemArena.push_build_none a resolver getKind getBelong step.build step.action errs hb]
        at h
      simp [hb] at h
      exact ih a resolver id h
    | some (item, o) =>
      rcases ha : step.action resolver (getKind item) (getBelong item) (a.pushed_index + 1) o
        with ⟨r₂, ok, aerrs⟩
      rw [ItemArena.allocatedIds] at h
      rw [ItemArena.push_build_some a resolver getKind getBelong step.build step.action
        item o errs r₂ ok aerrs hb ha] at h
      simp only [hb] at h
      rcases List.mem_cons.mp h with h1 | h1
      · exact h1 ▸ Nat.lt_succ_self _
      · have h2 := ih _ _ id h1
        simp only at h2
        exact Nat.lt_of_succ_lt h2

/-- C2 core: the allocated identities are strictly increasing in call order. -/
theorem ItemArena.allocatedIds_sorted {I R O E K : Type}
    (getKind : I → K) (getBelong : I → GroupId) :
    ∀ (steps : List (PushStep R I O E K)) (a : ItemArena I) (resolver : R),
      (a.allocatedIds resolver getKind getBelong steps).Sorted (· < ·) := by
  intro steps
  induction steps with
  | nil => intro a resolver; simp [ItemArena.allocatedIds]
  | cons step rest ih =>
    intro a resolver
    rcases hb : step.build resolver with ⟨opt, errs⟩
    match opt with
    | none =>
      rw [ItemArena.allocatedIds]
      simp only [hb]
      exact ih _ _
    | some (item, o) =>
      rcases ha : step.action resolver (getKind item) (getBelong item) (a.pushed_index + 1) o
        with ⟨r₂, ok, aerrs⟩
      rw [ItemArena.allocatedIds]
      simp only [hb]
      refine List.Pairwise.cons ?_ (ih _ _)
      intro id hid
      have h1 := ItemArena.allocatedIds_gt getKind getBelong rest _ _ id hid
      rw [ItemArena.push_build_some a resolver getKind getBelong step.build step.action
        item o errs r₂ ok aerrs hb ha] at h1
      simpa using h1

/-- The committed item identities form a sublist of the allocated identities. -/
theorem ItemArena.committedKeys_snd_sublist {I R O E K : Type}
    (getKind : I → K) (getBelong : I → GroupId) :
    ∀ (steps : List (PushStep R I O E K)) (a : ItemArena I) (resolver : R),
      List.Sublist ((a.committedKeys resolver getKind getBelong steps).map Prod.snd)
        (a.allocatedIds resolver getKind getBelong steps) := by
  intro steps
  induction steps with
  | nil => intro a resolver; simp [ItemArena.committedKeys, ItemArena.allocatedIds]
  | cons step rest ih =>
    intro a resolver
    rcases hb : step.build resolver with ⟨opt, errs⟩
    match opt with
    | none =>
      rw [ItemArena.committedKeys, ItemArena.allocatedIds]
      simp only [hb]
      exact ih _ _
    | some (item, o) =>
      rcases ha : step.action resolver (getKind item) (getBelong item) (a.pushed_index + 1) o
        with ⟨r₂, ok, aerrs⟩
      have hres := ItemArena.push_build_some a resolver getKind getBelong step.build step.action
        item o errs r₂ ok aerrs hb ha
      rw [ItemArena.committedKeys, ItemArena.allocatedIds]
      simp only [hb, hres]
      match ok with
      | true => exact List.Sublist.cons₂ _ (ih _ _)
      | false => exact List.Sublist.cons _ (ih _ _)

/-- C1: for every `push` on an `ItemArena`: if the builder yields no entity,
`push` returns `(false, builder_errors)`, allocates no identity and leaves
storage (and the counter) unchanged; if the builder yields an entity plus
option, the entity is inserted into storage if and only if the commit action's
boolean component is `true` — the returned boolean equals the action's boolean
and the returned error list is the concatenation of builder and action errors,
with no dependence of the commit status on error-list emptiness. -/
theorem push_commit_contract {I R O E K : Type} (a : ItemArena I) (resolver : R)
    (getKind : I → K) (getBelong : I → GroupId)
    (build : R → Option (I × O) × List E)
    (action : R → K → GroupId → GraphItemId → O → R × Bool × List E) :
    (∀ errs, build resolver = (none, errs) →
      a.push resolver getKind getBelong build action = (resolver, a, false, errs)) ∧
    (∀ item o errs r₂ ok aerrs,
      build resolver = (some (item, o), errs) →
      action resolver (getKind item) (getBelong item) (a.pushed_index + 1) o
        = (r₂, ok, aerrs) →
      (a.push resolver getKind getBelong build action).2.2.1 = ok ∧
      (a.push resolver getKind getBelong build action).2.2.2 = errs ++ aerrs ∧
      ((a.push resolver getKind getBelong build action).2.1.get (getBelong item)
          (a.pushed_index + 1)
        = if ok then some item else a.get (getBelong item) (a.pushed_index + 1)) ∧
      (ok = false → (a.push resolver getKind getBelong build action).2.1.arena = a.arena)) := by
  constructor
  · intro errs h
    exact ItemArena.push_build_none a resolver getKind getBelong build action errs h
  · intro item o errs r₂ ok aerrs hb ha
    have hp := ItemArena.push_build_some a resolver getKind getBelong build action
      item o errs r₂ ok aerrs hb ha
    rw [hp]
    match ok with
    | false => simp [ItemArena.get]
    | true => simp [ItemArena.get, alGet_alInsert_self]

/-- Witness for `push_commit_contract`: a concrete committed push with a
non-empty action error list still commits into storage. -/
theorem push_commit_contract_witness :
    ((ItemArena.new (I := Nat)).push (R := Nat) 0 (fun _ => 0) (fun _ => 2)
        (fun _ => (some (5, 7), [9])) (fun r _ _ _ _ => (r, true, [3]))).2.2.1 = true ∧
    ((ItemArena.new (I := Nat)).push (R := Nat) 0 (fun _ => 0) (fun _ => 2)
        (fun _ => (some (5, 7), [9])) (fun r _ _ _ _ => (r, true, [3]))).2.2.2
      = [9] ++ [3] := by
  have h := (push_commit_contract (ItemArena.new (I := Nat)) (R := Nat) 0
      (fun _ => 0) (fun _ => 2) (fun _ => (some (5, 7), [9]))
      (fun r _ _ _ _ => (r, true, [3]))).2 5 7 [9] 0 true [3] rfl rfl
  exact ⟨h.1, h.2.1⟩

/-- C2: along any sequence of pushes on one arena instance the allocated
identities strictly increase in call order (one global counter, regardless of
group, and an identity consumed by a failed commit is never reused since every
later identity is larger), the committed identities are a sublist of the
allocated ones, and no two committed entities — nor a committed entity and a
pre-existing one — share a `(GroupId, ItemId)` key. -/
theorem pushSeq_identity_uniqueness {I R O E K : Type}
    (getKind : I → K) (getBelong : I → GroupId)
    (steps : List (PushStep R I O E K)) (a : ItemArena I) (resolver : R)
    (hInv : ∀ kv ∈ a.arena, kv.1.2 ≤ a.pushed_index) :
    (a.allocatedIds resolver getKind getBelong steps).Sorted (· < ·) ∧
    List.Sublist ((a.committedKeys resolver getKind getBelong steps).map Prod.snd)
      (a.allocatedIds resolver getKind getBelong steps) ∧
    (a.committedKeys resolver getKind getBelong steps).Pairwise (· ≠ ·) ∧
    (∀ k ∈ a.committedKeys resolver getKind getBelong steps, ∀ kv ∈ a.arena, k ≠ kv.1) := by
  have hsorted := ItemArena.allocatedIds_sorted getKind getBelong steps a resolver
  have hsub := ItemArena.committedKeys_snd_sublist getKind getBelong steps a resolver
  have hsndmem : ∀ k ∈ a.committedKeys resolver getKind getBelong steps,
      a.pushed_index < k.2 := by
    intro k hk
    exact ItemArena.allocatedIds_gt getKind getBelong steps a resolver k.2
      (hsub.subset (List.mem_map_of_mem Prod.snd hk))
  refine ⟨hsorted, hsub, ?_, ?_⟩
  · have hpair : ((a.committedKeys resolver getKind getBelong steps).map Prod.snd).Pairwise
        (· < ·) := hsorted.sublist hsub
    rw [List.pairwise_map] at hpair
    exact hpair.imp (fun h => by
      intro heq
      exact absurd (heq ▸ h) (lt_irrefl _))
  · intro k hk kv hkv
    have h1 := hsndmem k hk
    have h2 := hInv kv hkv
    intro heq
    rw [heq] at h1
    exact absurd (Nat.lt_of_lt_of_le h1 h2) (lt_irrefl _)

/-- Witness for `pushSeq_identity_uniqueness` on a fresh arena and two
concrete pushes (one committed, one with a failing commit action). -/
theorem pushSeq_identity_uniqueness_witness :
    let s1 : PushStep Nat Nat Nat Nat Nat :=
      ⟨fun _ => (some (5, 0), []), fun r _ _ _ _ => (r, true, [])⟩
    let s2 : PushStep Nat Nat Nat Nat Nat :=
      ⟨fun _ => (some (6, 0), []), fun r _ _ _ _ => (r, false, [4])⟩
    ((ItemArena.new (I := Nat)).allocatedIds 0 (fun _ => 0) (fun _ => 2)
        [s1, s2]).Sorted (· < ·) ∧
    List.Sublist (((ItemArena.new (I := Nat)).committedKeys 0 (fun _ => 0) (fun _ => 2)
        [s1, s2]).map Prod.snd)
      ((ItemArena.new (I := Nat)).allocatedIds 0 (fun _ => 0) (fun _ => 2) [s1, s2]) ∧
    ((ItemArena.new (I := Nat)).committedKeys 0 (fun _ => 0) (fun _ => 2)
        [s1, s2]).Pairwise (· ≠ ·) ∧
    (∀ k ∈ (ItemArena.new (I := Nat)).committedKeys 0 (fun _ => 0) (fun _ => 2) [s1, s2],
      ∀ kv ∈ (ItemArena.new (I := Nat)).arena, k ≠ kv.1) := by
  intro s1 s2
  exact pushSeq_identity_uniqueness (fun _ => 0) (fun _ => 2) [s1, s2]
    (ItemArena.new (I := Nat)) 0 (by simp [ItemArena.new])

/-- C7: `push_default` installs its entity at the reserved `ItemId 0` of the
entity's group (so `get(group, 0)` and `get_default(group)` both return it),
the allocator only hands out identities strictly greater than
`DEFAULT_ITEM_ID`, and a normal `push` never changes any group's entry at
`ItemId 0`. -/
theorem push_default_reserved {I R O E K : Type} (a : ItemArena I) (resolver : R)
    (defaultItem : I) (getKind : I → K) (getBelong : I → GroupId) (defaultOption : O)
    (action : R → K → GroupId → GraphItemId → O → R × Bool × List E)
    (build : R → Option (I × O) × List E)
    (action₂ : R → K → GroupId → GraphItemId → O → R × Bool × List E) :
    (∀ r₁ a₁, a.push_default resolver defaultItem getKind getBelong defaultOption action
        = some (r₁, a₁) →
      a₁.get_default (getBelong defaultItem) = some defaultItem ∧
      a₁.get (getBelong defaultItem) 0 = some defaultItem) ∧
    DEFAULT_ITEM_ID < (a.get_push_index).1 ∧
    (∀ g : GroupId,
      (a.push resolver getKind getBelong build action₂).2.1.get g DEFAULT_ITEM_ID
        = a.get g DEFAULT_ITEM_ID) := by
  refine ⟨?_, ?_, ?_⟩
  · intro r₁ a₁ h
    rcases ha : action resolver (getKind defaultItem) (getBelong defaultItem)
        ItemArena.get_default_index defaultOption with ⟨r', ok, errs⟩
    rw [ItemArena.push_default] at h
    simp only [ha] at h
    split at h
    · exact absurd h (by simp)
    · simp only [Option.some.injEq, Prod.mk.injEq] at h
      have ha₁ : a₁ = { a with arena := alInsert (getBelong defaultItem,
          ItemArena.get_default_index) defaultItem a.arena } := h.2.symm
      subst ha₁
      constructor
      · simp [ItemArena.get_default, ItemArena.get, ItemArena.get_default_index,
          DEFAULT_ITEM_ID, alGet_alInsert_self]
      · simp [ItemArena.get, ItemArena.get_default_index, DEFAULT_ITEM_ID,
          alGet_alInsert_self]
  · simp [ItemArena.get_push_index, DEFAULT_ITEM_ID]
  · intro g
    rcases hb : build resolver with ⟨opt, errs⟩
    match opt with
    | none =>
      rw [ItemArena.push_build_none a resolver getKind getBelong build action₂ errs hb]
    | some (item, o) =>
      rcases ha : action₂ resolver (getKind item) (getBelong item) (a.pushed_index + 1) o
        with ⟨r₂, ok, aerrs⟩
      rw [ItemArena.push_build_some a resolver getKind getBelong build action₂
        item o errs r₂ ok aerrs hb ha]
      match ok with
      | false => simp [ItemArena.get]
      | true =>
        simp only [if_true, ItemArena.get, DEFAULT_ITEM_ID]
        exact alGet_alInsert_ne _ _ _ _ (by simp)

/-- Witness for `push_default_reserved` with a concrete succeeding commit
action and a concrete normal push. -/
theorem push_default_reserved_witness :
    ({ pushed_index := 0,
       arena := [((3, 0), 5)] } : ItemArena Nat).get_default 3 = some 5 ∧
    ({ pushed_index := 0,
       arena := [((3, 0), 5)] } : ItemArena Nat).get 3 0 = some 5 ∧
    DEFAULT_ITEM_ID < ((ItemArena.new (I := Nat)).get_push_index).1 ∧
    (((ItemArena.new (I := Nat)).push (R := Nat) (E := Nat) 0 (fun _ => 0) (fun _ => 3)
        (fun _ => (some (8, 0), [])) (fun r _ _ _ _ => (r, true, []))).2.1.get 3
        DEFAULT_ITEM_ID
      = (ItemArena.new (I := Nat)).get 3 DEFAULT_ITEM_ID) := by
  have h := push_default_reserved (ItemArena.new (I := Nat)) (R := Nat) (O := Nat)
    (E := Nat) (K := Nat) 0 5 (fun _ => 0) (fun _ => 3) 0
    (fun r _ _ _ _ => (r, true, [])) (fun _ => (some (8, 0), []))
    (fun r _ _ _ _ => (r, true, []))
  have h1 := h.1 0 { pushed_index := 0, arena := [((3, 0), 5)] } rfl
  exact ⟨h1.1, h1.2, h.2.1, h.2.2 3⟩

theorem is_usable_name_iff_get_value {Name Kind Value : Type}
    [DecidableEq Name] [DecidableEq Kind]
    (idx : NameRefIndex Name Kind Value) (kind : Kind) (name : Name) :
    idx.is_usable_name kind name = (idx.get_value kind name).isSome := by
  rw [NameRefIndex.is_usable_name, NameRefIndex.get_value]
  cases alGet kind idx.reference_index <;> simp

/-- C3 counterexample: re-inserting a name with the *same* value it already
maps to still signals `Override`, so "Override exactly when a *different*
value was previously bound" is false on the code: here `(kind 0, name 7)` is
bound to `1` and re-bound to the identical `1`, yet `Override` is reported. -/
theorem insert_same_value_still_overrides :
    ((((NameRefIndex.new : NameRefIndex Nat Nat Nat)
        ).insert_value_or_override 0 (some 7) 1).1.get_value 0 7 = some 1) ∧
    (((((NameRefIndex.new : NameRefIndex Nat Nat Nat)
        ).insert_value_or_override 0 (some 7) 1).1.insert_value_or_override 0
        (some 7) 1).2
      = Except.error (NameIdError.Override 0 7)) := by
  constructor <;> rfl

/-- C3 (amended): with a present name the forward and reverse entries are
updated unconditionally (a subsequent `get_value` returns the new value) and
the call signals `Override(kind, name)` exactly when the name was already
bound under that kind — to any value, including the same one — returning `Ok`
otherwise; with an absent name only the unnamed set is extended and the call
returns `Ok`. -/
theorem insert_value_or_override_spec {Name Kind Value : Type}
    [DecidableEq Name] [DecidableEq Kind] [DecidableEq Value]
    (idx : NameRefIndex Name Kind Value) (kind : Kind) (name : Name) (value : Value) :
    ((idx.insert_value_or_override kind (some name) value).1.get_value kind name
      = some value) ∧
    ((idx.insert_value_or_override kind (some name) value).1.get_name kind value
      = some name) ∧
    ((idx.insert_value_or_override kind (some name) value).2
        = Except.error (NameIdError.Override kind name)
      ↔ (idx.get_value kind name).isSome) ∧
    ((idx.insert_value_or_override kind (some name) value).2 = Except.ok ()
      ↔ idx.get_value kind name = none) ∧
    ((idx.insert_value_or_override kind none value).2 = Except.ok () ∧
      (idx.insert_value_or_override kind none value).1.reference_index
        = idx.reference_index ∧
      (idx.insert_value_or_override kind none value).1.rev_reference_index
        = idx.rev_reference_index ∧
      (idx.insert_value_or_override kind none value).1.no_name_reference
        = setInsert (kind, value) idx.no_name_reference) := by
  have husable := is_usable_name_iff_get_value idx kind name
  refine ⟨?_, ?_, ?_, ?_, ?_⟩
  · simp [NameRefIndex.insert_value_or_override, NameRefIndex.get_value,
      alGet_alInsert_self]
  · simp [NameRefIndex.insert_value_or_override, NameRefIndex.get_name,
      alGet_alInsert_self]
  · rw [NameRefIndex.insert_value_or_override]
    simp only [husable]
    cases hv : idx.get_value kind name <;> simp [hv]
  · rw [NameRefIndex.insert_value_or_override]
    simp only [husable]
    cases hv : idx.get_value kind name <;> simp [hv]
  · simp [NameRefIndex.insert_value_or_override]

/-! ### Resolver theorems -/

/-- C9 counterexample: on a resolver whose hierarchy already has a root, a
second `set_root_group_id` returns the error variant `FailSetRootGraphId`
(the spec §7 name `FailSetRoot`), not one named `AlreadyInitialized` — no such
variant exists in `ResolverError`. -/
theorem set_root_error_is_fail_set_root :
    (((((Resolver.new : Resolver Nat)).set_root_group_id 0).1.set_root_group_id 1).2
      = Except.error ResolverError.FailSetRootGraphId) ∧
    ResolverError.FailSetRootGraphId.variant_name = "FailSetRootGraphId" ∧
    ResolverError.FailSetRootGraphId.variant_name ≠ "AlreadyInitialized" := by
  refine ⟨rfl, rfl, ?_⟩
  decide

/-- C9 (amended): on a resolver whose hierarchy has no root the first
`set_root_group_id` succeeds and installs the root group identity; every call
on a resolver whose hierarchy already has a root returns the error
`FailSetRootGraphId` (not `AlreadyInitialized`, which does not exist) and
leaves the hierarchy unchanged. -/
theorem set_root_group_id_once {Name : Type} (r : Resolver Name) (g g' : GroupId) :
    (r.group_id_tree.is_some = false →
      (r.set_root_group_id g).1.group_id_tree = IdTree.new g ∧
      (r.set_root_group_id g).2 = Except.ok () ∧
      ((r.set_root_group_id g).1.set_root_group_id g').2
        = Except.error ResolverError.FailSetRootGraphId ∧
      ((r.set_root_group_id g).1.set_root_group_id g').1
        = (r.set_root_group_id g).1) ∧
    (r.group_id_tree.is_some = true →
      r.set_root_group_id g = (r, Except.error ResolverError.FailSetRootGraphId)) := by
  constructor
  · intro h
    have htree : r.group_id_tree = IdTree.None := by
      cases htree : r.group_id_tree with
      | None => rfl
      | Tree root edges => rw [htree] at h; simp [IdTree.is_some] at h
    simp [Resolver.set_root_group_id, htree, IdTree.is_some, IdTree.new]
  · intro h
    simp [Resolver.set_root_group_id, h]

/-- Witness for `set_root_group_id_once` on a fresh resolver. -/
theorem set_root_group_id_once_witness :
    (((Resolver.new : Resolver Nat)).set_root_group_id 4).1.group_id_tree = IdTree.new 4 ∧
    (((Resolver.new : Resolver Nat)).set_root_group_id 4).2 = Except.ok () ∧
    ((((Resolver.new : Resolver Nat)).set_root_group_id 4).1.set_root_group_id 6).2
      = Except.error ResolverError.FailSetRootGraphId ∧
    ((((Resolver.new : Resolver Nat)).set_root_group_id 4).1.set_root_group_id 6).1
      = (((Resolver.new : Resolver Nat)).set_root_group_id 4).1 := by
  exact (set_root_group_id_once ((Resolver.new : Resolver Nat)) 4 6).1 rfl

/-- C10: a name `n` registered under kind `Group` with value pair `(g, i)`
makes `get_belong_group (some n)` return the `ItemId` component `i` of the
pair — not the `GroupId` component `g` — and this is exactly the value the
edge builder's `resolve_belong_group` hands on for the ancestor checks. -/
theorem get_belong_group_uses_item_id {Name : Type} [DecidableEq Name]
    (r : Resolver Name) (n : Name) (g : GroupId) (i : ItemId)
    (h : r.graph_items.get_value .Group n = some (g, i)) :
    r.get_belong_group (some n) = Except.ok i ∧
    (∀ (b : EdgeItemBuilder Name) (item_id : ItemId) (errors : List (GrafoError Name)),
      b.belong_group = some n →
      b.resolve_belong_group item_id r errors = (some i, errors)) := by
  have hpair : r.get_graph_item_id_pair .Group n = Except.ok (g, i) := by
    simp [Resolver.get_graph_item_id_pair, h]
  constructor
  · simp [Resolver.get_belong_group, hpair]
  · intro b item_id errors hb
    simp [EdgeItemBuilder.resolve_belong_group, Resolver.get_belong_group, hb, hpair]

/-- Witness for `get_belong_group_uses_item_id`: name `7` is registered under
kind `Group` with pair `(0, 3)`; the belonging group resolves to `3`. -/
theorem get_belong_group_uses_item_id_witness :
    ({ group_id_tree := IdTree.new 0,
       graph_items :=
        { reference_index := [(GraphItemKind.Group, [(7, ((0 : GroupId), (3 : ItemId)))])],
          rev_reference_index := [],
          no_name_reference := [] } } : Resolver Nat).get_belong_group (some 7)
      = Except.ok 3 ∧
    ({ (EdgeItemBuilder.new : EdgeItemBuilder Nat) with
        belong_group := some 7 }).resolve_belong_group 1
      { group_id_tree := IdTree.new 0,
        graph_items :=
          { reference_index := [(GraphItemKind.Group, [(7, ((0 : GroupId), (3 : ItemId)))])],
            rev_reference_index := [],
            no_name_reference := [] } } []
      = (some 3, []) := by
  have h := get_belong_group_uses_item_id
    ({ group_id_tree := IdTree.new 0,
       graph_items :=
        { reference_index := [(GraphItemKind.Group, [(7, ((0 : GroupId), (3 : ItemId)))])],
          rev_reference_index := [],
          no_name_reference := [] } } : Resolver Nat) 7 0 3 rfl
  exact ⟨h.1, h.2 _ 1 [] rfl⟩

/-! ### Edge-builder helper lemmas -/

theorem finishEdgeBuild_fst {Name : Type}
    (res : Option EdgeItem × EdgeItemOption Name × List (GrafoError Name)) :
    (finishEdgeBuild res).1 = res.1.map (fun i => (i, res.2.1)) := by
  rcases res with ⟨_ | i, o, e⟩ <;> rfl

theorem finishEdgeBuild_snd {Name : Type}
    (res : Option EdgeItem × EdgeItemOption Name × List (GrafoError Name)) :
    (finishEdgeBuild res).2 = res.2.2 := by
  rcases res with ⟨_ | i, o, e⟩ <;> rfl

/-- `resolve_endpoint` threads the accumulated error list as a prefix and its
resolved value does not depend on it. -/
theorem resolve_endpoint_errors {Name : Type} [DecidableEq Name]
    (b : EdgeItemBuilder Name) (group_id : GroupId) (item_id : ItemId)
    (endpoint : Option (GraphItemKind × Name)) (resolver : Resolver Name)
    (errors : List (GrafoError Name)) (ns : ItemId → EdgeItemError Name) :
    b.resolve_endpoint group_id item_id endpoint resolver errors ns
      = ((b.resolve_endpoint group_id item_id endpoint resolver [] ns).1,
         errors ++ (b.resolve_endpoint group_id item_id endpoint resolver [] ns).2) := by
  rcases endpoint with _ | ⟨kind, name⟩
  · simp [EdgeItemBuilder.resolve_endpoint]
  · rcases h : resolver.get_graph_item_id_pair kind name with e | ⟨eg, ei⟩
    · simp [EdgeItemBuilder.resolve_endpoint, h]
    · simp only [EdgeItemBuilder.resolve_endpoint, h]
      split_ifs <;> simp

/-- `resolve_item` threads the accumulated error list as a prefix; neither the
resolved item nor the option depends on it. -/
theorem resolve_item_errors {Name : Type} [DecidableEq Name]
    (b : EdgeItemBuilder Name) (item_id : ItemId) (resolver : Resolver Name)
    (errors : List (GrafoError Name)) (bg : Option ItemId)
    (st en : Option (GraphItemKind × (GroupId × ItemId))) :
    b.resolve_item item_id resolver errors bg st en
      = ((b.resolve_item item_id resolver [] bg st en).1,
         (b.resolve_item item_id resolver [] bg st en).2.1,
         errors ++ (b.resolve_item item_id resolver [] bg st en).2.2) := by
  rcases bg with _ | gid <;>
    rcases st with _ | ⟨sk, sbg, sid⟩ <;>
    rcases en with _ | ⟨ek, ebg, eid⟩ <;>
    rcases hn : b.name with _ | n <;>
    simp only [EdgeItemBuilder.resolve_item, hn] <;>
    (try split_ifs) <;> simp

/-- With an unresolved start endpoint, `resolve_item` yields no entity. -/
theorem resolve_item_none_start {Name : Type} [DecidableEq Name]
    (b : EdgeItemBuilder Name) (item_id : ItemId) (resolver : Resolver Name)
    (errors : List (GrafoError Name)) (G : GroupId)
    (en : Option (GraphItemKind × (GroupId × ItemId))) :
    (b.resolve_item item_id resolver errors (some G) none en).1 = none := by
  rcases en with _ | ⟨ek, ebg, eid⟩ <;>
    rcases hn : b.name with _ | n <;>
    simp only [EdgeItemBuilder.resolve_item, hn] <;>
    (try split_ifs) <;> simp

/-- With an unresolved end endpoint, `resolve_item` yields no entity. -/
theorem resolve_item_none_end {Name : Type} [DecidableEq Name]
    (b : EdgeItemBuilder Name) (item_id : ItemId) (resolver : Resolver Name)
    (errors : List (GrafoError Name)) (G : GroupId)
    (st : Option (GraphItemKind × (GroupId × ItemId))) :
    (b.resolve_item item_id resolver errors (some G) st none).1 = none := by
  rcases st with _ | ⟨sk, sbg, sid⟩ <;>
    rcases hn : b.name with _ | n <;>
    simp only [EdgeItemBuilder.resolve_item, hn] <;>
    (try split_ifs) <;> simp

/-- A `Group`-kind endpoint whose resolved identity equals the belonging group
or one of its ancestors is rejected by `resolve_endpoint`: no value, and
`CannotSpecifyBelongGroupAsEndpoint` is appended. -/
theorem resolve_endpoint_rejects {Name : Type} [DecidableEq Name]
    (b : EdgeItemBuilder Name) (G : GroupId) (item_id : ItemId) (epname : Name)
    (resolver : Resolver Name) (errors : List (GrafoError Name))
    (ns : ItemId → EdgeItemError Name) (eg : GroupId) (ei : ItemId)
    (hres : resolver.get_graph_item_id_pair .Group epname = Except.ok (eg, ei))
    (hanc : ei = G ∨ ei ∈ resolver.get_ancestor_ids G) :
    (b.resolve_endpoint G item_id (some (.Group, epname)) resolver errors ns).1
      = none ∧
    GrafoError.EdgeItemError
        (.CannotSpecifyBelongGroupAsEndpoint item_id b.name epname)
      ∈ (b.resolve_endpoint G item_id (some (.Group, epname)) resolver errors ns).2 := by
  by_cases hG : G = ei
  · constructor <;> simp [EdgeItemBuilder.resolve_endpoint, hres, hG]
  · have hmem : ei ∈ resolver.get_ancestor_ids G := by
      rcases hanc with h | h
      · exact absurd h.symm hG
      · exact h
    by_cases hc : resolver.contains_group G = true
    · constructor <;> simp [EdgeItemBuilder.resolve_endpoint, hres, hG, hc, hmem]
    · constructor <;> simp [EdgeItemBuilder.resolve_endpoint, hres, hG, hc]

/-- Once the belonging group resolves to `G`, `build` is the staged pipeline
`stStage` / `enStage` / `resStage` finished by the last `match`. -/
theorem build_decomposed {Name : Type} [DecidableEq Name]
    (b : EdgeItemBuilder Name) (item_id : ItemId) (resolver : Resolver Name)
    (G : GroupId)
    (hbg : resolver.get_belong_group b.belong_group = Except.ok G) :
    b.build item_id resolver = finishEdgeBuild (b.resStage item_id resolver G) := by
  have hbg2 : b.resolve_belong_group item_id resolver [] = (some G, []) := by
    simp [EdgeItemBuilder.resolve_belong_group, hbg]
  rw [EdgeItemBuilder.build]
  simp only [hbg2]
  rfl

/-- C4: an edge endpoint of kind `Group` resolving to the edge's own belonging
group `G`, or to an ancestor of `G`, makes `build` report
`CannotSpecifyBelongGroupAsEndpoint`, yield no entity, and makes an arena
`push` of this builder return uncommitted with the arena unchanged. -/
theorem edge_build_rejects_belong_group_endpoint {Name : Type} [DecidableEq Name]
    {K : Type} (b : EdgeItemBuilder Name) (item_id : ItemId)
    (resolver : Resolver Name) (G : GroupId) (epname : Name) (eg : GroupId)
    (ei : ItemId) (a : ItemArena EdgeItem) (getKind : EdgeItem → K)
    (getBelong : EdgeItem → GroupId)
    (action : Resolver Name → K → GroupId → GraphItemId → EdgeItemOption Name →
      Resolver Name × Bool × List (GrafoError Name))
    (hbg : resolver.get_belong_group b.belong_group = Except.ok G)
    (hres : resolver.get_graph_item_id_pair .Group epname = Except.ok (eg, ei))
    (hanc : ei = G ∨ ei ∈ resolver.get_ancestor_ids G)
    (hep : b.start = some (.Group, epname) ∨ b.end_ = some (.Group, epname)) :
    (b.build item_id resolver).1 = none ∧
    GrafoError.EdgeItemError
        (.CannotSpecifyBelongGroupAsEndpoint item_id b.name epname)
      ∈ (b.build item_id resolver).2 ∧
    a.push resolver getKind getBelong (fun r => b.build item_id r) action
      = (resolver, a, false, (b.build item_id resolver).2) := by
  have hdec := build_decomposed b item_id resolver G hbg
  have hen2 : (b.enStage item_id resolver G).2
      = (b.stStage item_id resolver G).2
        ++ (b.resolve_endpoint G item_id b.end_ resolver []
              (fun iid => .NotSpecifyEndEndpoint iid b.name b.end_)).2 := by
    rw [EdgeItemBuilder.enStage, resolve_endpoint_errors]
  have hress : (b.resStage item_id resolver G).2.2
      = (b.enStage item_id resolver G).2
        ++ (b.resolve_item item_id resolver [] (some G)
              (b.stStage item_id resolver G).1 (b.enStage item_id resolver G).1).2.2 := by
    rw [EdgeItemBuilder.resStage, resolve_item_errors]
  have hmain : (b.build item_id resolver).1 = none ∧
      GrafoError.EdgeItemError
          (.CannotSpecifyBelongGroupAsEndpoint item_id b.name epname)
        ∈ (b.build item_id resolver).2 := by
    rcases hep with hs | he
    · have hrej := resolve_endpoint_rejects b G item_id epname resolver []
        (fun iid => .NotSpecifyStartEndpoint iid b.name b.start) eg ei hres hanc
      rw [← hs] at hrej
      have hst1 : (b.stStage item_id resolver G).1 = none := hrej.1
      have hst2 : GrafoError.EdgeItemError
          (.CannotSpecifyBelongGroupAsEndpoint item_id b.name epname)
          ∈ (b.stStage item_id resolver G).2 := hrej.2
      constructor
      · rw [hdec, finishEdgeBuild_fst, EdgeItemBuilder.resStage, hst1,
          resolve_item_none_start]
        rfl
      · rw [hdec, finishEdgeBuild_snd, hress, hen2]
        exact List.mem_append_left _ (List.mem_append_left _ hst2)
    · have hrej := resolve_endpoint_rejects b G item_id epname resolver
        (b.stStage item_id resolver G).2
        (fun iid => .NotSpecifyEndEndpoint iid b.name b.end_) eg ei hres hanc
      rw [← he] at hrej
      have hen1 : (b.enStage item_id resolver G).1 = none := hrej.1
      have henm : GrafoError.EdgeItemError
          (.CannotSpecifyBelongGroupAsEndpoint item_id b.name epname)
          ∈ (b.enStage item_id resolver G).2 := hrej.2
      constructor
      · rw [hdec, finishEdgeBuild_fst, EdgeItemBuilder.resStage, hen1,
          resolve_item_none_end]
        rfl
      · rw [hdec, finishEdgeBuild_snd, hress]
        exact List.mem_append_left _ henm
  have hprod : b.build item_id resolver = (none, (b.build item_id resolver).2) := by
    rw [← hmain.1]
  exact ⟨hmain.1, hmain.2,
    ItemArena.push_build_none a resolver getKind getBelong _ action _ hprod⟩

/-- Witness for `edge_build_rejects_belong_group_endpoint`: the sample builder
names its own belonging group (id `3`) as its start endpoint. -/
theorem edge_build_rejects_belong_group_endpoint_witness :
    (sampleSelfEndpointBuilder.build 1 sampleResolverGroup).1 = none ∧
    GrafoError.EdgeItemError
        (.CannotSpecifyBelongGroupAsEndpoint 1 sampleSelfEndpointBuilder.name 7)
      ∈ (sampleSelfEndpointBuilder.build 1 sampleResolverGroup).2 ∧
    (ItemArena.new (I := EdgeItem)).push sampleResolverGroup (fun _ => (0 : Nat))
        EdgeItem.belong_group_id (fun r => sampleSelfEndpointBuilder.build 1 r)
        (fun r _ _ _ _ => (r, true, []))
      = (sampleResolverGroup, ItemArena.new,
         false, (sampleSelfEndpointBuilder.build 1 sampleResolverGroup).2) :=
  edge_build_rejects_belong_group_endpoint sampleSelfEndpointBuilder 1
    sampleResolverGroup 3 7 0 3 ItemArena.new (fun _ => (0 : Nat))
    EdgeItem.belong_group_id (fun r _ _ _ _ => (r, true, []))
    rfl rfl (Or.inl rfl) (Or.inl rfl)

/-- The option component of `resolve_item` is always the builder's name. -/
theorem resolve_item_option_eq {Name : Type} [DecidableEq Name]
    (b : EdgeItemBuilder Name) (item_id : ItemId) (resolver : Resolver Name)
    (errors : List (GrafoError Name)) (bg : Option ItemId)
    (st en : Option (GraphItemKind × (GroupId × ItemId))) :
    (b.resolve_item item_id resolver errors bg st en).2.1
      = ⟨b.name⟩ := rfl

/-- With both endpoints resolved, the entity component of `resolve_item` is
governed exactly by the common-ancestor containment condition. -/
theorem resolve_item_both {Name : Type} [DecidableEq Name]
    (b : EdgeItemBuilder Name) (item_id : ItemId) (resolver : Resolver Name)
    (errors : List (GrafoError Name)) (G : GroupId) (sk ek : GraphItemKind)
    (sbg ebg : GroupId) (sid eid : ItemId) :
    (b.resolve_item item_id resolver errors (some G)
        (some (sk, (sbg, sid))) (some (ek, (ebg, eid)))).1
      = if ((G == sbg || (resolver.get_ancestor_ids sbg).contains G)
            && (G == ebg || (resolver.get_ancestor_ids ebg).contains G)) = true
        then some (EdgeItem.new G item_id ⟨sk, sbg, sid⟩ ⟨ek, ebg, eid⟩ b.label
          (b.style.getD default))
        else none := by
  rcases hn : b.name with _ | n <;>
    simp only [EdgeItemBuilder.resolve_item, hn] <;>
    split_ifs <;>
    rfl

/-- With both endpoints resolved and the containment condition violated,
`resolve_item` appends `InappropriateGroup`. -/
theorem resolve_item_both_false_mem {Name : Type} [DecidableEq Name]
    (b : EdgeItemBuilder Name) (item_id : ItemId) (resolver : Resolver Name)
    (errors : List (GrafoError Name)) (G : GroupId) (sk ek : GraphItemKind)
    (sbg ebg : GroupId) (sid eid : ItemId)
    (hcond : ((G == sbg || (resolver.get_ancestor_ids sbg).contains G)
        && (G == ebg || (resolver.get_ancestor_ids ebg).contains G)) = false) :
    GrafoError.EdgeItemError (.InappropriateGroup item_id b.name b.belong_group)
      ∈ (b.resolve_item item_id resolver errors (some G)
          (some (sk, (sbg, sid))) (some (ek, (ebg, eid)))).2.2 := by
  have hcond' : ¬((G = sbg ∨ G ∈ resolver.get_ancestor_ids sbg)
      ∧ (G = ebg ∨ G ∈ resolver.get_ancestor_ids ebg)) := by
    simpa using hcond
  rcases hn : b.name with _ | n <;>
    simp [EdgeItemBuilder.resolve_item, hn, hcond'] <;>
    (try split_ifs) <;> simp

/-- C5: once the belonging group resolves to `G` and both endpoints resolve,
`build` produces the edge entity exactly when `G` equals or is an ancestor of
both endpoints' belonging groups; otherwise it appends `InappropriateGroup`
and yields no entity. -/
theorem edge_build_inappropriate_group {Name : Type} [DecidableEq Name]
    (b : EdgeItemBuilder Name) (item_id : ItemId) (resolver : Resolver Name)
    (G : GroupId) (sk ek : GraphItemKind) (sbg ebg : GroupId) (sid eid : ItemId)
    (hbg : resolver.get_belong_group b.belong_group = Except.ok G)
    (hst : (b.stStage item_id resolver G).1 = some (sk, (sbg, sid)))
    (hen : (b.enStage item_id resolver G).1 = some (ek, (ebg, eid))) :
    ((b.build item_id resolver).1.isSome
      = ((G == sbg || (resolver.get_ancestor_ids sbg).contains G)
          && (G == ebg || (resolver.get_ancestor_ids ebg).contains G))) ∧
    (((G == sbg || (resolver.get_ancestor_ids sbg).contains G)
        && (G == ebg || (resolver.get_ancestor_ids ebg).contains G)) = true →
      (b.build item_id resolver).1
        = some (EdgeItem.new G item_id ⟨sk, sbg, sid⟩ ⟨ek, ebg, eid⟩ b.label
            (b.style.getD default), ⟨b.name⟩)) ∧
    (((G == sbg || (resolver.get_ancestor_ids sbg).contains G)
        && (G == ebg || (resolver.get_ancestor_ids ebg).contains G)) = false →
      (b.build item_id resolver).1 = none ∧
      GrafoError.EdgeItemError (.InappropriateGroup item_id b.name b.belong_group)
        ∈ (b.build item_id resolver).2) := by
  have hdec := build_decomposed b item_id resolver G hbg
  have h1 : (b.resStage item_id resolver G).1
      = if ((G == sbg || (resolver.get_ancestor_ids sbg).contains G)
            && (G == ebg || (resolver.get_ancestor_ids ebg).contains G)) = true
        then some (EdgeItem.new G item_id ⟨sk, sbg, sid⟩ ⟨ek, ebg, eid⟩ b.label
          (b.style.getD default))
        else none := by
    rw [EdgeItemBuilder.resStage, hst, hen]
    exact resolve_item_both b item_id resolver _ G sk ek sbg ebg sid eid
  have hopt : (b.resStage item_id resolver G).2.1 = ⟨b.name⟩ :=
    resolve_item_option_eq b item_id resolver _ (some G) _ _
  refine ⟨?_, ?_, ?_⟩
  · rw [hdec, finishEdgeBuild_fst, h1]
    cases hcond : ((G == sbg || (resolver.get_ancestor_ids sbg).contains G)
        && (G == ebg || (resolver.get_ancestor_ids ebg).contains G)) <;>
      simp [hcond]
  · intro h
    rw [hdec, finishEdgeBuild_fst, h1, hopt, if_pos h]
    rfl
  · intro h
    constructor
    · rw [hdec, finishEdgeBuild_fst, h1, if_neg (by rw [h]; simp)]
      rfl
    · have hmem := resolve_item_both_false_mem b item_id resolver
        (b.enStage item_id resolver G).2 G sk ek sbg ebg sid eid h
      rw [hdec, finishEdgeBuild_snd, EdgeItemBuilder.resStage, hst, hen]
      exact hmem

/-- Witness for `edge_build_inappropriate_group`: an edge in the root group
between two root-group nodes is produced (the containment condition holds). -/
theorem edge_build_inappropriate_group_witness :
    ((sampleEdgeBuilderNodes.build 1 sampleResolverNodes).1.isSome
      = (((0 : GroupId) == 0 || (sampleResolverNodes.get_ancestor_ids 0).contains 0)
          && ((0 : GroupId) == 0 || (sampleResolverNodes.get_ancestor_ids 0).contains 0))) ∧
    ((((0 : GroupId) == 0 || (sampleResolverNodes.get_ancestor_ids 0).contains 0)
        && ((0 : GroupId) == 0 || (sampleResolverNodes.get_ancestor_ids 0).contains 0)) = true →
      (sampleEdgeBuilderNodes.build 1 sampleResolverNodes).1
        = some (EdgeItem.new 0 1 ⟨.Node, 0, 10⟩ ⟨.Node, 0, 11⟩
            sampleEdgeBuilderNodes.label
            (sampleEdgeBuilderNodes.style.getD default),
          ⟨sampleEdgeBuilderNodes.name⟩)) := by
  have h := edge_build_inappropriate_group sampleEdgeBuilderNodes 1
    sampleResolverNodes 0 .Node .Node 0 0 10 11 rfl rfl rfl
  exact ⟨h.1, h.2.1⟩

/-- Whatever the entity outcome, a requested edge name that is already taken
makes `resolve_item` append `AlreadyExist` to the error list. -/
theorem resolve_item_already_exist_mem {Name : Type} [DecidableEq Name]
    (b : EdgeItemBuilder Name) (item_id : ItemId) (resolver : Resolver Name)
    (errors : List (GrafoError Name)) (bg : Option ItemId)
    (st en : Option (GraphItemKind × (GroupId × ItemId))) (n : Name)
    (hn : b.name = some n)
    (hus : resolver.is_usable_graph_item_name .Edge n = true) :
    GrafoError.EdgeItemError (.FromNameId item_id (some n) (.AlreadyExist .Edge n))
      ∈ (b.resolve_item item_id resolver errors bg st en).2.2 := by
  rcases bg with _ | gid <;>
    rcases st with _ | ⟨sk, sbg, sid⟩ <;>
    rcases en with _ | ⟨ek, ebg, eid⟩ <;>
    simp only [EdgeItemBuilder.resolve_item, hn, hus] <;>
    (try split_ifs) <;> simp

/-- The `AlreadyExist` check survives to the final error list of `build`. -/
theorem edge_build_already_exist_mem {Name : Type} [DecidableEq Name]
    (b : EdgeItemBuilder Name) (item_id : ItemId) (resolver : Resolver Name)
    (n : Name) (hn : b.name = some n)
    (hus : resolver.is_usable_graph_item_name .Edge n = true) :
    GrafoError.EdgeItemError (.FromNameId item_id (some n) (.AlreadyExist .Edge n))
      ∈ (b.build item_id resolver).2 := by
  rw [EdgeItemBuilder.build]
  simp only [finishEdgeBuild_snd]
  exact resolve_item_already_exist_mem b item_id resolver _ _ _ _ n hn hus

/-- C8: builders accumulate every violated rule instead of stopping at the
first.  For a node builder whose belonging group fails to resolve and whose
requested name is already taken, `build` yields no entity while the error
list carries both `FailResolveBelongGroup` and `AlreadyExist`; for an edge
builder, a taken name always adds `AlreadyExist` to the final error list,
whatever else failed. -/
theorem builder_accumulates_already_exist {Name : Type} [DecidableEq Name]
    (nb : NodeItemBuilder Name) (eb : EdgeItemBuilder Name)
    (item_id eitem_id : ItemId) (nr er : Resolver Name) (n m : Name)
    (err : Sum (NameIdError Name GraphItemKind) ResolverError)
    (hn : nb.name = some n)
    (hcont : nr.contains_name_graph_item .Node n = true)
    (hfail : nr.get_belong_group_pair nb.belong_group = Except.error err)
    (hm : eb.name = some m)
    (hus : er.is_usable_graph_item_name .Edge m = true) :
    (nb.build item_id nr).1 = none ∧
    GrafoError.NodeItemError (.FailResolveBelongGroup item_id)
      ∈ (nb.build item_id nr).2 ∧
    GrafoError.NodeItemError (.FromNameId item_id (.AlreadyExist .Node n))
      ∈ (nb.build item_id nr).2 ∧
    GrafoError.EdgeItemError (.FromNameId eitem_id (some m) (.AlreadyExist .Edge m))
      ∈ (eb.build eitem_id er).2 := by
  have hedge := edge_build_already_exist_mem eb eitem_id er m hm hus
  have hnode : (nb.build item_id nr).1 = none ∧
      GrafoError.NodeItemError (.FailResolveBelongGroup item_id)
        ∈ (nb.build item_id nr).2 ∧
      GrafoError.NodeItemError (.FromNameId item_id (.AlreadyExist .Node n))
        ∈ (nb.build item_id nr).2 := by
    rcases err with e | e <;>
      simp [NodeItemBuilder.build, NodeItemBuilder.resolve_belong_group, hfail,
        NodeItemBuilder.resolve_item, NodeItemBuilder.resolve_item_option, hn, hcont]
  exact ⟨hnode.1, hnode.2.1, hnode.2.2, hedge⟩

/-- Witness for `builder_accumulates_already_exist`: node name `5` and edge
name `6` are already registered; the node's belonging group name `9` does not
resolve. -/
theorem builder_accumulates_already_exist_witness :
    (({ belong_group := some 9, name := some 5 } :
        NodeItemBuilder Nat).build 1 sampleResolverNames).1 = none ∧
    GrafoError.NodeItemError (.FailResolveBelongGroup 1)
      ∈ (({ belong_group := some 9, name := some 5 } :
          NodeItemBuilder Nat).build 1 sampleResolverNames).2 ∧
    GrafoError.NodeItemError (.FromNameId 1 (.AlreadyExist .Node 5))
      ∈ (({ belong_group := some 9, name := some 5 } :
          NodeItemBuilder Nat).build 1 sampleResolverNames).2 ∧
    GrafoError.EdgeItemError (.FromNameId 2 (some 6) (.AlreadyExist .Edge 6))
      ∈ (({ (EdgeItemBuilder.new : EdgeItemBuilder Nat) with name := some 6 }).build 2
          sampleResolverNames).2 :=
  builder_accumulates_already_exist
    ({ belong_group := some 9, name := some 5 } : NodeItemBuilder Nat)
    ({ (EdgeItemBuilder.new : EdgeItemBuilder Nat) with name := some 6 }) 1 2
    sampleResolverNames sampleResolverNames 5 6
    (Sum.inl (.NotExist .Group 9)) rfl rfl rfl rfl rfl

/-! ### Merge-iterator lemmas -/

theorem selectMinAux_eq_acc {I : Type} :
    ∀ (rest : List (List (ItemId × I))) (i : Nat) (acc : Option (Nat × ItemId)),
      (∀ l ∈ rest, l = []) → selectMinAux i acc rest = acc := by
  intro rest
  induction rest with
  | nil => intro i acc _; rfl
  | cons l rest ih =>
    intro i acc h
    have hl : l = [] := h l (List.mem_cons_self _ _)
    subst hl
    rw [selectMinAux]
    exact ih (i + 1) acc (fun l hl => h l (List.mem_cons_of_mem _ hl))

theorem selectMinAux_none {I : Type} :
    ∀ (rest : List (List (ItemId × I))) (i : Nat) (acc : Option (Nat × ItemId)),
      selectMinAux i acc rest = none → acc = none ∧ ∀ l ∈ rest, l = [] := by
  intro rest
  induction rest with
  | nil => intro i acc h; exact ⟨h, by simp⟩
  | cons l rest ih =>
    intro i acc h
    rcases l with _ | ⟨⟨id, v⟩, tl⟩
    · rw [selectMinAux] at h
      obtain ⟨h1, h2⟩ := ih (i + 1) acc h
      refine ⟨h1, ?_⟩
      intro l hl
      rcases List.mem_cons.mp hl with rfl | hl
      · rfl
      · exact h2 l hl
    · rcases acc with _ | ⟨j, m⟩
      · rw [selectMinAux] at h
        simp only [List.head?_cons] at h
        obtain ⟨h1, _⟩ := ih _ _ h
        exact absurd h1 (by simp)
      · rw [selectMinAux] at h
        simp only [List.head?_cons] at h
        split_ifs at h <;>
          · obtain ⟨h1, _⟩ := ih _ _ h
            exact absurd h1 (by simp)

theorem selectMinAux_some {I : Type} :
    ∀ (rest : List (List (ItemId × I))) (i : Nat) (acc : Option (Nat × ItemId))
      (j : Nat) (m : ItemId),
      selectMinAux i acc rest = some (j, m) →
      (acc = some (j, m) ∨
        ∃ k, k < rest.length ∧ j = i + k ∧
          ∃ (l : List (ItemId × I)) (v : I),
            rest.get? k = some l ∧ l.head? = some (m, v)) ∧
      (∀ l ∈ rest, ∀ (id : ItemId) (v : I), l.head? = some (id, v) → m ≤ id) ∧
      (∀ (j₀ : Nat) (m₀ : ItemId), acc = some (j₀, m₀) → m ≤ m₀) := by
  intro rest
  induction rest with
  | nil =>
    intro i acc j m h
    refine ⟨Or.inl h, by simp, ?_⟩
    intro j₀ m₀ hacc
    rw [hacc] at h
    simp only [selectMinAux, Option.some.injEq, Prod.mk.injEq] at h
    exact Nat.le_of_eq h.2.symm
  | cons l rest ih =>
    intro i acc j m h
    rcases l with _ | ⟨⟨id, v⟩, tl⟩
    · rw [selectMinAux] at h
      obtain ⟨hloc, hmin, haccb⟩ := ih (i + 1) acc j m h
      refine ⟨?_, ?_, haccb⟩
      · rcases hloc with h1 | ⟨k, hk, hj, l', v', hget, hhead⟩
        · exact Or.inl h1
        · exact Or.inr ⟨k + 1, by simpa using hk, by omega, l', v', by simpa using hget,
            hhead⟩
      · intro l' hl' id' v' hhead'
        rcases List.mem_cons.mp hl' with rfl | hl'
        · exact absurd hhead' (by simp)
        · exact hmin l' hl' id' v' hhead'
    · rcases hacc0 : acc with _ | ⟨j₀, m₀⟩
      · subst hacc0
        rw [selectMinAux] at h
        simp only [List.head?_cons] at h
        obtain ⟨hloc, hmin, haccb⟩ := ih (i + 1) (some (i, id)) j m h
        have hmid : m ≤ id := haccb i id rfl
        refine ⟨?_, ?_, by simp⟩
        · rcases hloc with h1 | ⟨k, hk, hj, l', v', hget, hhead⟩
          · simp only [Option.some.injEq, Prod.mk.injEq] at h1
            exact Or.inr ⟨0, by simp, by omega, (id, v) :: tl, v, by simp,
              by simp [h1.2]⟩
          · exact Or.inr ⟨k + 1, by simpa using hk, by omega, l', v',
              by simpa using hget, hhead⟩
        · intro l' hl' id' v' hhead'
          rcases List.mem_cons.mp hl' with rfl | hl'
          · simp only [List.head?_cons, Option.some.injEq, Prod.mk.injEq] at hhead'
            exact hhead'.1 ▸ hmid
          · exact hmin l' hl' id' v' hhead'
      · subst hacc0
        rw [selectMinAux] at h
        simp only [List.head?_cons] at h
        by_cases hge : m₀ ≥ id
        · rw [if_pos hge] at h
          obtain ⟨hloc, hmin, haccb⟩ := ih (i + 1) (some (i, id)) j m h
          have hmid : m ≤ id := haccb i id rfl
          refine ⟨?_, ?_, ?_⟩
          · rcases hloc with h1 | ⟨k, hk, hj, l', v', hget, hhead⟩
            · simp only [Option.some.injEq, Prod.mk.injEq] at h1
              exact Or.inr ⟨0, by simp, by omega, (id, v) :: tl, v, by simp,
                by simp [h1.2]⟩
            · exact Or.inr ⟨k + 1, by simpa using hk, by omega, l', v',
                by simpa using hget, hhead⟩
          · intro l' hl' id' v' hhead'
            rcases List.mem_cons.mp hl' with rfl | hl'
            · simp only [List.head?_cons, Option.some.injEq, Prod.mk.injEq] at hhead'
              exact hhead'.1 ▸ hmid
            · exact hmin l' hl' id' v' hhead'
          · intro j₁ m₁ hacc1
            simp only [Option.some.injEq, Prod.mk.injEq] at hacc1
            rw [← hacc1.2]
            exact le_trans hmid hge
        · rw [if_neg hge] at h
          obtain ⟨hloc, hmin, haccb⟩ := ih (i + 1) (some (j₀, m₀)) j m h
          have hmm0 : m ≤ m₀ := haccb j₀ m₀ rfl
          refine ⟨?_, ?_, ?_⟩
          · rcases hloc with h1 | ⟨k, hk, hj, l', v', hget, hhead⟩
            · exact Or.inl h1
            · exact Or.inr ⟨k + 1, by simpa using hk, by omega, l', v',
                by simpa using hget, hhead⟩
          · intro l' hl' id' v' hhead'
            rcases List.mem_cons.mp hl' with rfl | hl'
            · simp only [List.head?_cons, Option.some.injEq, Prod.mk.injEq] at hhead'
              rw [← hhead'.1]
              exact le_trans hmm0 (Nat.le_of_lt (Nat.lt_of_not_le hge))
            · exact hmin l' hl' id' v' hhead'
          · intro j₁ m₁ hacc1
            simp only [Option.some.injEq, Prod.mk.injEq] at hacc1
            rw [← hacc1.2]
            exact hmm0

theorem selectMaxAux_eq_acc {I : Type} :
    ∀ (rest : List (List (ItemId × I))) (i : Nat) (acc : Option (Nat × ItemId)),
      (∀ l ∈ rest, l = []) → selectMaxAux i acc rest = acc := by
  intro rest
  induction rest with
  | nil => intro i acc _; rfl
  | cons l rest ih =>
    intro i acc h
    have hl : l = [] := h l (List.mem_cons_self _ _)
    subst hl
    rw [selectMaxAux]
    exact ih (i + 1) acc (fun l hl => h l (List.mem_cons_of_mem _ hl))

theorem selectMaxAux_none {I : Type} :
    ∀ (rest : List (List (ItemId × I))) (i : Nat) (acc : Option (Nat × ItemId)),
      selectMaxAux i acc rest = none → acc = none ∧ ∀ l ∈ rest, l = [] := by
  intro rest
  induction rest with
  | nil => intro i acc h; exact ⟨h, by simp⟩
  | cons l rest ih =>
    intro i acc h
    rcases hlast : l.getLast? with _ | ⟨id, v⟩
    · rw [selectMaxAux] at h
      rw [hlast] at h
      obtain ⟨h1, h2⟩ := ih (i + 1) acc h
      refine ⟨h1, ?_⟩
      intro l' hl'
      rcases List.mem_cons.mp hl' with rfl | hl'
      · exact List.getLast?_eq_none_iff.mp hlast
      · exact h2 l' hl'
    · rcases acc with _ | ⟨j, m⟩
      · rw [selectMaxAux] at h
        simp only [hlast] at h
        obtain ⟨h1, _⟩ := ih _ _ h
        exact absurd h1 (by simp)
      · rw [selectMaxAux] at h
        simp only [hlast] at h
        split_ifs at h <;>
          · obtain ⟨h1, _⟩ := ih _ _ h
            exact absurd h1 (by simp)

theorem selectMaxAux_some {I : Type} :
    ∀ (rest : List (List (ItemId × I))) (i : Nat) (acc : Option (Nat × ItemId))
      (j : Nat) (m : ItemId),
      selectMaxAux i acc rest = some (j, m) →
      (acc = some (j, m) ∨
        ∃ k, k < rest.length ∧ j = i + k ∧
          ∃ (l : List (ItemId × I)) (v : I),
            rest.get? k = some l ∧ l.getLast? = some (m, v)) ∧
      (∀ l ∈ rest, ∀ (id : ItemId) (v : I), l.getLast? = some (id, v) → id ≤ m) ∧
      (∀ (j₀ : Nat) (m₀ : ItemId), acc = some (j₀, m₀) → m₀ ≤ m) := by
  intro rest
  induction rest with
  | nil =>
    intro i acc j m h
    refine ⟨Or.inl h, by simp, ?_⟩
    intro j₀ m₀ hacc
    rw [hacc] at h
    simp only [selectMaxAux, Option.some.injEq, Prod.mk.injEq] at h
    exact Nat.le_of_eq h.2
  | cons l rest ih =>
    intro i acc j m h
    rcases hlast : l.getLast? with _ | ⟨id, v⟩
    · rw [selectMaxAux] at h
      rw [hlast] at h
      obtain ⟨hloc, hmax, haccb⟩ := ih (i + 1) acc j m h
      refine ⟨?_, ?_, haccb⟩
      · rcases hloc with h1 | ⟨k, hk, hj, l', v', hget, hlast'⟩
        · exact Or.inl h1
        · exact Or.inr ⟨k + 1, by simpa using hk, by omega, l', v',
            by simpa using hget, hlast'⟩
      · intro l' hl' id' v' hlast'
        rcases List.mem_cons.mp hl' with rfl | hl'
        · rw [hlast] at hlast'; cases hlast'
        · exact hmax l' hl' id' v' hlast'
    · rcases hacc0 : acc with _ | ⟨j₀, m₀⟩
      · subst hacc0
        rw [selectMaxAux] at h
        simp only [hlast] at h
        obtain ⟨hloc, hmax, haccb⟩ := ih (i + 1) (some (i, id)) j m h
        have hmid : id ≤ m := haccb i id rfl
        refine ⟨?_, ?_, by simp⟩
        · rcases hloc with h1 | ⟨k, hk, hj, l', v', hget, hlast'⟩
          · simp only [Option.some.injEq, Prod.mk.injEq] at h1
            exact Or.inr ⟨0, by simp, by omega, l, v, by simp, by rw [hlast, h1.2]⟩
          · exact Or.inr ⟨k + 1, by simpa using hk, by omega, l', v',
              by simpa using hget, hlast'⟩
        · intro l' hl' id' v' hlast'
          rcases List.mem_cons.mp hl' with rfl | hl'
          · rw [hlast] at hlast'
            simp only [Option.some.injEq, Prod.mk.injEq] at hlast'
            rw [← hlast'.1]
            exact hmid
          · exact hmax l' hl' id' v' hlast'
      · subst hacc0
        rw [selectMaxAux] at h
        simp only [hlast] at h
        by_cases hle : m₀ ≤ id
        · rw [if_pos hle] at h
          obtain ⟨hloc, hmax, haccb⟩ := ih (i + 1) (some (i, id)) j m h
          have hmid : id ≤ m := haccb i id rfl
          refine ⟨?_, ?_, ?_⟩
          · rcases hloc with h1 | ⟨k, hk, hj, l', v', hget, hlast'⟩
            · simp only [Option.some.injEq, Prod.mk.injEq] at h1
              exact Or.inr ⟨0, by simp, by omega, l, v, by simp, by rw [hlast, h1.2]⟩
            · exact Or.inr ⟨k + 1, by simpa using hk, by omega, l', v',
                by simpa using hget, hlast'⟩
          · intro l' hl' id' v' hlast'
            rcases List.mem_cons.mp hl' with rfl | hl'
            · rw [hlast] at hlast'
              simp only [Option.some.injEq, Prod.mk.injEq] at hlast'
              rw [← hlast'.1]
              exact hmid
            · exact hmax l' hl' id' v' hlast'
          · intro j₁ m₁ hacc1
            simp only [Option.some.injEq, Prod.mk.injEq] at hacc1
            rw [← hacc1.2]
            exact le_trans hle hmid
        · rw [if_neg hle] at h
          obtain ⟨hloc, hmax, haccb⟩ := ih (i + 1) (some (j₀, m₀)) j m h
          have hmm0 : m₀ ≤ m := haccb j₀ m₀ rfl
          refine ⟨?_, ?_, ?_⟩
          · rcases hloc with h1 | ⟨k, hk, hj, l', v', hget, hlast'⟩
            · exact Or.inl h1
            · exact Or.inr ⟨k + 1, by simpa using hk, by omega, l', v',
                by simpa using hget, hlast'⟩
          · intro l' hl' id' v' hlast'
            rcases List.mem_cons.mp hl' with rfl | hl'
            · rw [hlast] at hlast'
              simp only [Option.some.injEq, Prod.mk.injEq] at hlast'
              rw [← hlast'.1]
              exact le_trans (Nat.le_of_lt (Nat.lt_of_not_le hle)) hmm0
            · exact hmax l' hl' id' v' hlast'
          · intro j₁ m₁ hacc1
            simp only [Option.some.injEq, Prod.mk.injEq] at hacc1
            rw [← hacc1.2]
            exact hmm0

theorem mem_of_get? {α : Type} :
    ∀ (l : List α) (n : Nat) (a : α), l.get? n = some a → a ∈ l := by
  intro l
  induction l with
  | nil => intro n a h; cases h
  | cons x xs ih =>
    intro n a h
    cases n with
    | zero =>
      simp only [List.get?] at h
      cases h
      exact List.mem_cons_self _ _
    | succ n =>
      simp only [List.get?] at h
      exact List.mem_cons_of_mem _ (ih n a h)

theorem sumLen_set {I : Type} :
    ∀ (iters : List (List (ItemId × I))) (idx : Nat) (l l' : List (ItemId × I)),
      iters.get? idx = some l → l.length = l'.length + 1 →
      sumLen (iters.set idx l') + 1 = sumLen iters := by
  intro iters
  induction iters with
  | nil => intro idx l l' h _; cases h
  | cons x xs ih =>
    intro idx l l' h hlen
    cases idx with
    | zero =>
      simp only [List.get?] at h
      cases h
      simp only [List.set, sumLen, List.map_cons, List.sum_cons]
      omega
    | succ n =>
      simp only [List.get?] at h
      have := ih n l l' h hlen
      simp only [List.set, sumLen, List.map_cons, List.sum_cons]
      simp only [sumLen] at this
      omega

theorem join_perm_pop {I : Type} :
    ∀ (iters : List (List (ItemId × I))) (idx : Nat) (hd : ItemId × I)
      (tl : List (ItemId × I)),
      iters.get? idx = some (hd :: tl) →
      iters.join.Perm (hd :: (iters.set idx tl).join) := by
  intro iters
  induction iters with
  | nil => intro idx hd tl h; cases h
  | cons x xs ih =>
    intro idx hd tl h
    cases idx with
    | zero =>
      simp only [List.get?] at h
      cases h
      exact List.Perm.refl _
    | succ n =>
      simp only [List.get?] at h
      show (x ++ xs.join).Perm (hd :: (x ++ (xs.set n tl).join))
      exact ((ih n hd tl h).append_left x).trans List.perm_middle

theorem eq_dropLast_append {α : Type} :
    ∀ (l : List α) (a : α), l.getLast? = some a → l = l.dropLast ++ [a] := by
  intro l
  induction l with
  | nil => intro a h; cases h
  | cons x xs ih =>
    intro a h
    rcases xs with _ | ⟨y, ys⟩
    · simp only [List.getLast?_singleton, Option.some.injEq] at h
      subst h
      rfl
    · rw [List.getLast?_cons_cons] at h
      have h2 := ih a h
      calc x :: y :: ys = x :: ((y :: ys).dropLast ++ [a]) := by rw [← h2]
        _ = (x :: y :: ys).dropLast ++ [a] := rfl

theorem join_perm_pop_back {I : Type} :
    ∀ (iters : List (List (ItemId × I))) (idx : Nat) (l : List (ItemId × I))
      (hd : ItemId × I),
      iters.get? idx = some l → l.getLast? = some hd →
      iters.join.Perm (hd :: (iters.set idx l.dropLast).join) := by
  intro iters
  induction iters with
  | nil => intro idx l hd h _; cases h
  | cons x xs ih =>
    intro idx l hd h hlast
    cases idx with
    | zero =>
      simp only [List.get?] at h
      cases h
      show (x ++ xs.join).Perm (hd :: (x.dropLast ++ xs.join))
      have h1 : x ++ xs.join = x.dropLast ++ (hd :: xs.join) := by
        conv_lhs => rw [eq_dropLast_append x hd hlast]
        simp
      rw [h1]
      exact List.perm_middle
    | succ n =>
      simp only [List.get?] at h
      show (x ++ xs.join).Perm (hd :: (x ++ (xs.set n l.dropLast).join))
      exact ((ih n l hd h hlast).append_left x).trans List.perm_middle

theorem le_getLast_of_sorted {I : Type} (l : List (ItemId × I)) (a : ItemId × I)
    (hs : (l.map Prod.fst).Sorted (· ≤ ·)) (hl : l.getLast? = some a) :
    ∀ x ∈ l, x.1 ≤ a.1 := by
  intro x hx
  have heq := eq_dropLast_append l a hl
  rw [heq] at hx hs
  rw [List.map_append] at hs
  rcases List.mem_append.mp hx with h1 | h1
  · have h2 := (List.pairwise_append.mp hs).2.2
    exact h2 x.1 (List.mem_map_of_mem _ h1) a.1 (by simp)
  · simp only [List.mem_singleton] at h1
    subst h1
    exact Nat.le_refl _

theorem iterNext_some {I : Type} {iters : List (List (ItemId × I))}
    {hd : ItemId × I} {iters₁ : List (List (ItemId × I))}
    (h : iterNext iters = some (hd, iters₁)) :
    ∃ idx tl, iters.get? idx = some (hd :: tl) ∧ iters₁ = iters.set idx tl ∧
      ∀ l ∈ iters, ∀ (id : ItemId) (v : I), l.head? = some (id, v) → hd.1 ≤ id := by
  rw [iterNext] at h
  rcases hsel : selectMinAux 0 none iters with _ | ⟨idx, m⟩
  · rw [hsel] at h; cases h
  · simp only [hsel] at h
    obtain ⟨hloc, hmin, _⟩ := selectMinAux_some iters 0 none idx m hsel
    rcases hloc with h1 | ⟨k, hk, hj, l, v, hget, hhead⟩
    · exact absurd h1 (by simp)
    · have hidx : idx = k := by omega
      subst hidx
      rcases l with _ | ⟨hd', tl⟩
      · cases hhead
      · simp only [List.head?_cons, Option.some.injEq] at hhead
        simp only [hget, Option.some.injEq, Prod.mk.injEq] at h
        obtain ⟨hhd, hset⟩ := h
        subst hhd
        refine ⟨idx, tl, hget, hset.symm, ?_⟩
        intro l' hl' id v' hh
        have := hmin l' hl' id v' hh
        rw [hhead]
        exact this

theorem iterNext_none {I : Type} {iters : List (List (ItemId × I))}
    (h : iterNext iters = none) : ∀ l ∈ iters, l = [] := by
  rw [iterNext] at h
  rcases hsel : selectMinAux 0 none iters with _ | ⟨idx, m⟩
  · exact (selectMinAux_none iters 0 none hsel).2
  · simp only [hsel] at h
    obtain ⟨hloc, _, _⟩ := selectMinAux_some iters 0 none idx m hsel
    rcases hloc with h1 | ⟨k, hk, hj, l, v, hget, hhead⟩
    · exact absurd h1 (by simp)
    · have hidx : idx = k := by omega
      subst hidx
      rcases l with _ | ⟨hd', tl⟩
      · cases hhead
      · simp only [hget] at h
        cases h

theorem iterNextBack_some {I : Type} {iters : List (List (ItemId × I))}
    {hd : ItemId × I} {iters₁ : List (List (ItemId × I))}
    (h : iterNextBack iters = some (hd, iters₁)) :
    ∃ idx l, iters.get? idx = some l ∧ l.getLast? = some hd ∧
      iters₁ = iters.set idx l.dropLast ∧
      ∀ l' ∈ iters, ∀ (id : ItemId) (v : I), l'.getLast? = some (id, v) → id ≤ hd.1 := by
  rw [iterNextBack] at h
  rcases hsel : selectMaxAux 0 none iters with _ | ⟨idx, m⟩
  · rw [hsel] at h; cases h
  · simp only [hsel] at h
    obtain ⟨hloc, hmax, _⟩ := selectMaxAux_some iters 0 none idx m hsel
    rcases hloc with h1 | ⟨k, hk, hj, l, v, hget, hlast⟩
    · exact absurd h1 (by simp)
    · have hidx : idx = k := by omega
      subst hidx
      simp only [hget, hlast, Option.some.injEq, Prod.mk.injEq] at h
      obtain ⟨hhd, hset⟩ := h
      refine ⟨idx, l, hget, ?_, hset.symm, ?_⟩
      · rw [hlast, hhd]
      · intro l' hl' id v' hh
        have := hmax l' hl' id v' hh
        rw [← hhd]
        exact this

theorem iterNextBack_none {I : Type} {iters : List (List (ItemId × I))}
    (h : iterNextBack iters = none) : ∀ l ∈ iters, l = [] := by
  rw [iterNextBack] at h
  rcases hsel : selectMaxAux 0 none iters with _ | ⟨idx, m⟩
  · exact (selectMaxAux_none iters 0 none hsel).2
  · simp only [hsel] at h
    obtain ⟨hloc, _, _⟩ := selectMaxAux_some iters 0 none idx m hsel
    rcases hloc with h1 | ⟨k, hk, hj, l, v, hget, hlast⟩
    · exact absurd h1 (by simp)
    · have hidx : idx = k := by omega
      subst hidx
      simp only [hget, hlast] at h
      cases h

theorem join_eq_nil_of_forall {α : Type} :
    ∀ {L : List (List α)}, (∀ l ∈ L, l = []) → L.join = [] := by
  intro L
  induction L with
  | nil => intro _; rfl
  | cons x xs ih =>
    intro h
    have hx : x = [] := h x (List.mem_cons_self _ _)
    subst hx
    simp only [List.join_cons, List.nil_append]
    exact ih (fun l hl => h l (List.mem_cons_of_mem _ hl))

theorem all_nil_of_sumLen_zero {I : Type} {iters : List (List (ItemId × I))}
    (h : sumLen iters = 0) : ∀ l ∈ iters, l = [] := by
  intro l hl
  have hmem : l.length ∈ iters.map List.length := List.mem_map_of_mem _ hl
  have hle : l.length ≤ (iters.map List.length).sum :=
    List.single_le_sum (fun x _ => Nat.zero_le x) _ hmem
  rw [sumLen] at h
  exact List.eq_nil_of_length_eq_zero (by omega)

theorem runForwardAux_perm {I : Type} :
    ∀ (fuel : Nat) (iters : List (List (ItemId × I))), sumLen iters ≤ fuel →
      (runForwardAux fuel iters).Perm iters.join := by
  intro fuel
  induction fuel with
  | zero =>
    intro iters h
    have hall := all_nil_of_sumLen_zero (Nat.le_zero.mp h)
    rw [runForwardAux, join_eq_nil_of_forall hall]
  | succ fuel ih =>
    intro iters h
    rw [runForwardAux]
    rcases hn : iterNext iters with _ | ⟨hd, iters₁⟩
    · rw [join_eq_nil_of_forall (iterNext_none hn)]
    · obtain ⟨idx, tl, hget, hset, hmin⟩ := iterNext_some hn
      have hsum := sumLen_set iters idx (hd :: tl) tl hget (by simp)
      have hlen₁ : sumLen iters₁ ≤ fuel := by rw [hset]; omega
      have ihp := ih iters₁ hlen₁
      have hperm := join_perm_pop iters idx hd tl hget
      rw [← hset] at hperm
      exact (ihp.cons hd).trans hperm.symm

theorem runBackwardAux_perm {I : Type} :
    ∀ (fuel : Nat) (iters : List (List (ItemId × I))), sumLen iters ≤ fuel →
      (runBackwardAux fuel iters).Perm iters.join := by
  intro fuel
  induction fuel with
  | zero =>
    intro iters h
    have hall := all_nil_of_sumLen_zero (Nat.le_zero.mp h)
    rw [runBackwardAux, join_eq_nil_of_forall hall]
  | succ fuel ih =>
    intro iters h
    rw [runBackwardAux]
    rcases hn : iterNextBack iters with _ | ⟨hd, iters₁⟩
    · rw [join_eq_nil_of_forall (iterNextBack_none hn)]
    · obtain ⟨idx, l, hget, hlast, hset, hmax⟩ := iterNextBack_some hn
      have hne : l ≠ [] := by
        intro he
        rw [he] at hlast
        cases hlast
      have hlen : l.length = l.dropLast.length + 1 := by
        rw [List.length_dropLast]
        have := List.length_pos.mpr hne
        omega
      have hsum := sumLen_set iters idx l l.dropLast hget hlen
      have hlen₁ : sumLen iters₁ ≤ fuel := by rw [hset]; omega
      have ihp := ih iters₁ hlen₁
      have hperm := join_perm_pop_back iters idx l hd hget hlast
      rw [← hset] at hperm
      exact (ihp.cons hd).trans hperm.symm

theorem runForwardAux_sorted {I : Type} :
    ∀ (fuel : Nat) (iters : List (List (ItemId × I))), sumLen iters ≤ fuel →
      (∀ l ∈ iters, (l.map Prod.fst).Sorted (· ≤ ·)) →
      ((runForwardAux fuel iters).map Prod.fst).Sorted (· ≤ ·) := by
  intro fuel
  induction fuel with
  | zero => intro iters _ _; simp [runForwardAux]
  | succ fuel ih =>
    intro iters hlen hsort
    rw [runForwardAux]
    rcases hn : iterNext iters with _ | ⟨hd, iters₁⟩
    · simp
    · obtain ⟨idx, tl, hget, hset, hmin⟩ := iterNext_some hn
      have horig : (hd :: tl) ∈ iters := mem_of_get? _ _ _ hget
      have hsum := sumLen_set iters idx (hd :: tl) tl hget (by simp)
      have hlen₁ : sumLen iters₁ ≤ fuel := by rw [hset]; omega
      have hsort₁ : ∀ l ∈ iters₁, (l.map Prod.fst).Sorted (· ≤ ·) := by
        intro l hl
        rw [hset] at hl
        rcases List.mem_or_eq_of_mem_set hl with h1 | rfl
        · exact hsort l h1
        · have h2 := hsort _ horig
          simp only [List.map_cons] at h2
          exact h2.of_cons
      have ihs := ih iters₁ hlen₁ hsort₁
      simp only [List.map_cons]
      refine List.Pairwise.cons ?_ ihs
      intro y hy
      rcases List.mem_map.mp hy with ⟨x, hx, rfl⟩
      have hxj : x ∈ iters₁.join := (runForwardAux_perm fuel iters₁ hlen₁).subset hx
      rcases List.mem_join.mp hxj with ⟨l, hl, hxl⟩
      rw [hset] at hl
      rcases List.mem_or_eq_of_mem_set hl with h1 | rfl
      · rcases l with _ | ⟨⟨id, v⟩, tl'⟩
        · cases hxl
        · have hb := hmin _ h1 id v rfl
          have hsl := hsort _ h1
          simp only [List.map_cons] at hsl
          rcases List.mem_cons.mp hxl with rfl | hxtl
          · exact hb
          · exact le_trans hb
              (List.rel_of_sorted_cons hsl x.1 (List.mem_map_of_mem _ hxtl))
      · have hsl := hsort _ horig
        simp only [List.map_cons] at hsl
        exact List.rel_of_sorted_cons hsl x.1 (List.mem_map_of_mem _ hxl)

theorem runBackwardAux_sorted {I : Type} :
    ∀ (fuel : Nat) (iters : List (List (ItemId × I))), sumLen iters ≤ fuel →
      (∀ l ∈ iters, (l.map Prod.fst).Sorted (· ≤ ·)) →
      ((runBackwardAux fuel iters).map Prod.fst).Sorted (· ≥ ·) := by
  intro fuel
  induction fuel with
  | zero => intro iters _ _; simp [runBackwardAux]
  | succ fuel ih =>
    intro iters hlen hsort
    rw [runBackwardAux]
    rcases hn : iterNextBack iters with _ | ⟨hd, iters₁⟩
    · simp
    · obtain ⟨idx, l, hget, hlast, hset, hmax⟩ := iterNextBack_some hn
      have horig : l ∈ iters := mem_of_get? _ _ _ hget
      have hne : l ≠ [] := by
        intro he
        rw [he] at hlast
        cases hlast
      have hlendrop : l.length = l.dropLast.length + 1 := by
        rw [List.length_dropLast]
        have := List.length_pos.mpr hne
        omega
      have hsum := sumLen_set iters idx l l.dropLast hget hlendrop
      have hlen₁ : sumLen iters₁ ≤ fuel := by rw [hset]; omega
      have hsort₁ : ∀ l' ∈ iters₁, (l'.map Prod.fst).Sorted (· ≤ ·) := by
        intro l' hl'
        rw [hset] at hl'
        rcases List.mem_or_eq_of_mem_set hl' with h1 | rfl
        · exact hsort l' h1
        · exact (hsort _ horig).sublist ((List.dropLast_sublist l).map Prod.fst)
      have ihs := ih iters₁ hlen₁ hsort₁
      simp only [List.map_cons]
      refine List.Pairwise.cons ?_ ihs
      intro y hy
      rcases List.mem_map.mp hy with ⟨x, hx, rfl⟩
      have hxj : x ∈ iters₁.join := (runBackwardAux_perm fuel iters₁ hlen₁).subset hx
      rcases List.mem_join.mp hxj with ⟨l', hl', hxl⟩
      rw [hset] at hl'
      rcases List.mem_or_eq_of_mem_set hl' with h1 | rfl
      · rcases hlast' : l'.getLast? with _ | ⟨lid, lv⟩
        · rw [List.getLast?_eq_none_iff.mp hlast'] at hxl
          cases hxl
        · have hb : lid ≤ hd.1 := hmax _ h1 lid lv hlast'
          have h2 := le_getLast_of_sorted l' (lid, lv) (hsort _ h1) hlast' x hxl
          exact le_trans h2 hb
      · have hxmem : x ∈ l := (List.dropLast_sublist l).subset hxl
        exact le_getLast_of_sorted l hd (hsort _ horig) hlast x hxmem

/-- C6: for every map from groups to ItemId-sorted partitions, the all-groups
merge (`IterGroupByAll`) traversed forward yields exactly the N stored items
(a permutation of the concatenated partitions, hence length N) in
non-decreasing ItemId order, and traversed backward yields N items in
non-increasing order; the group-subset merge (`IterGroupByList`) restricted
to `S` yields exactly the items whose group is in `S`, in the same two
orders, and a group absent from the map contributes nothing. -/
theorem merge_iteration_spec {I : Type} (map : List (GroupId × List (ItemId × I)))
    (S : List GroupId) (g : GroupId)
    (hsorted : ∀ p ∈ map, (p.2.map Prod.fst).Sorted (· < ·))
    (hg : g ∉ map.map Prod.fst) :
    (runForward (IterGroupByAll.from_btree_map map)).length
      = sumLen (IterGroupByAll.from_btree_map map) ∧
    (runBackward (IterGroupByAll.from_btree_map map)).length
      = sumLen (IterGroupByAll.from_btree_map map) ∧
    (runForward (IterGroupByAll.from_btree_map map)).Perm
      (IterGroupByAll.from_btree_map map).join ∧
    ((runForward (IterGroupByAll.from_btree_map map)).map Prod.fst).Sorted (· ≤ ·) ∧
    ((runBackward (IterGroupByAll.from_btree_map map)).map Prod.fst).Sorted (· ≥ ·) ∧
    (runForward (IterGroupByList.from_btree_map S map)).Perm
      ((map.filter (fun p => S.contains p.1)).map Prod.snd).join ∧
    ((runForward (IterGroupByList.from_btree_map S map)).map Prod.fst).Sorted (· ≤ ·) ∧
    ((runBackward (IterGroupByList.from_btree_map S map)).map Prod.fst).Sorted (· ≥ ·) ∧
    IterGroupByList.from_btree_map (g :: S) map = IterGroupByList.from_btree_map S map := by
  have hAll : ∀ l ∈ IterGroupByAll.from_btree_map map,
      (l.map Prod.fst).Sorted (· ≤ ·) := by
    intro l hl
    rcases List.mem_map.mp hl with ⟨p, hp, rfl⟩
    exact (hsorted p hp).imp (fun h => Nat.le_of_lt h)
  have hList : ∀ l ∈ IterGroupByList.from_btree_map S map,
      (l.map Prod.fst).Sorted (· ≤ ·) := by
    intro l hl
    rcases List.mem_map.mp hl with ⟨p, hp, rfl⟩
    exact (hsorted p (List.mem_of_mem_filter hp)).imp (fun h => Nat.le_of_lt h)
  refine ⟨?_, ?_, ?_, ?_, ?_, ?_, ?_, ?_, ?_⟩
  · rw [runForward, (runForwardAux_perm _ _ (Nat.le_refl _)).length_eq,
      List.length_join]
    rfl
  · rw [runBackward, (runBackwardAux_perm _ _ (Nat.le_refl _)).length_eq,
      List.length_join]
    rfl
  · exact runForwardAux_perm _ _ (Nat.le_refl _)
  · exact runForwardAux_sorted _ _ (Nat.le_refl _) hAll
  · exact runBackwardAux_sorted _ _ (Nat.le_refl _) hAll
  · exact runForwardAux_perm _ _ (Nat.le_refl _)
  · exact runForwardAux_sorted _ _ (Nat.le_refl _) hList
  · exact runBackwardAux_sorted _ _ (Nat.le_refl _) hList
  · rw [IterGroupByList.from_btree_map, IterGroupByList.from_btree_map]
    congr 1
    apply List.filter_congr
    intro p hp
    have hne : p.1 ≠ g := by
      intro he
      exact hg (he ▸ List.mem_map_of_mem Prod.fst hp)
    simp [List.contains_cons, hne]

/-- Witness for `merge_iteration_spec` on a concrete two-group map. -/
theorem merge_iteration_spec_witness :
    (runForward (IterGroupByAll.from_btree_map
        [((0 : GroupId), [((1 : ItemId), (10 : Nat)), (3, 30)]), (1, [(2, 20)])])).length
      = sumLen (IterGroupByAll.from_btree_map
        [((0 : GroupId), [((1 : ItemId), (10 : Nat)), (3, 30)]), (1, [(2, 20)])]) ∧
    (runBackward (IterGroupByAll.from_btree_map
        [((0 : GroupId), [((1 : ItemId), (10 : Nat)), (3, 30)]), (1, [(2, 20)])])).length
      = sumLen (IterGroupByAll.from_btree_map
        [((0 : GroupId), [((1 : ItemId), (10 : Nat)), (3, 30)]), (1, [(2, 20)])]) ∧
    (runForward (IterGroupByAll.from_btree_map
        [((0 : GroupId), [((1 : ItemId), (10 : Nat)), (3, 30)]), (1, [(2, 20)])])).Perm
      (IterGroupByAll.from_btree_map
        [((0 : GroupId), [((1 : ItemId), (10 : Nat)), (3, 30)]), (1, [(2, 20)])]).join ∧
    ((runForward (IterGroupByAll.from_btree_map
        [((0 : GroupId), [((1 : ItemId), (10 : Nat)), (3, 30)]),
         (1, [(2, 20)])])).map Prod.fst).Sorted (· ≤ ·) ∧
    ((runBackward (IterGroupByAll.from_btree_map
        [((0 : GroupId), [((1 : ItemId), (10 : Nat)), (3, 30)]),
         (1, [(2, 20)])])).map Prod.fst).Sorted (· ≥ ·) ∧
    (runForward (IterGroupByList.from_btree_map [1]
        [((0 : GroupId), [((1 : ItemId), (10 : Nat)), (3, 30)]), (1, [(2, 20)])])).Perm
      (([((0 : GroupId), [((1 : ItemId), (10 : Nat)), (3, 30)]),
         (1, [(2, 20)])].filter (fun p => [1].contains p.1)).map Prod.snd).join ∧
    ((runForward (IterGroupByList.from_btree_map [1]
        [((0 : GroupId), [((1 : ItemId), (10 : Nat)), (3, 30)]),
         (1, [(2, 20)])])).map Prod.fst).Sorted (· ≤ ·) ∧
    ((runBackward (IterGroupByList.from_btree_map [1]
        [((0 : GroupId), [((1 : ItemId), (10 : Nat)), (3, 30)]),
         (1, [(2, 20)])])).map Prod.fst).Sorted (· ≥ ·) ∧
    IterGroupByList.from_btree_map (5 :: [1])
        [((0 : GroupId), [((1 : ItemId), (10 : Nat)), (3, 30)]), (1, [(2, 20)])]
      = IterGroupByList.from_btree_map [1]
        [((0 : GroupId), [((1 : ItemId), (10 : Nat)), (3, 30)]), (1, [(2, 20)])] :=
  merge_iteration_spec
    [((0 : GroupId), [((1 : ItemId), (10 : Nat)), (3, 30)]), (1, [(2, 20)])]
    [1] 5 (by decide) (by decide)

end Regrafilo
